import Mathlib

/-! # hdwallet-go: deposit-address derivation and sweeping

A shallow embedding of `btc.go` and `eth.go` of `renproject/hdwallet-go`,
followed by theorems about the derivation scheme and the sweep engine.

Go byte slices are lists of bytes, Go strings are lists of bytes as well
(Go strings are byte sequences).  Library calls whose result depends on the
outside world (chain clients) are oracles acting on an abstract world state.
-/

namespace Hdwallet

/-! ## Bytes -/

/-- A Go `byte`. -/
abbrev Byte := Fin 256

/-- Go conversion `byte(n)` of a non-negative integer: truncation to 8 bits. -/
def toByte (n : Nat) : Byte := ⟨n % 256, Nat.mod_lt n (by decide)⟩

/-- A `uuid.UUID`, declared in Go as `[16]byte`. -/
abbrev UUID := { bs : List Byte // bs.length = 16 }

/-! ## txscript.ScriptBuilder (btcd), as used by `newScript` -/

def MaxScriptSize : Nat := 10000
def MaxScriptElementSize : Nat := 520

def OP_0 : Byte := 0x00
def OP_DATA_1 : Byte := 0x01
def OP_PUSHDATA1 : Byte := 0x4c
def OP_PUSHDATA2 : Byte := 0x4d
def OP_PUSHDATA4 : Byte := 0x4e
def OP_1NEGATE : Byte := 0x4f
def OP_1 : Byte := 0x51
def OP_DROP : Byte := 0x75
def OP_DUP : Byte := 0x76
def OP_EQUALVERIFY : Byte := 0x88
def OP_HASH160 : Byte := 0xa9
def OP_CHECKSIG : Byte := 0xac

/-- The error type `txscript.ErrScriptNotCanonical`. -/
inductive ScriptError where
  | notCanonicalOp
  | notCanonicalDataScriptSize
  | notCanonicalDataElementSize
  deriving DecidableEq, Repr

/-- The builder: the script so far and the first error met. -/
structure ScriptBuilder where
  script : List Byte
  err : Option ScriptError
  deriving DecidableEq, Repr

def NewScriptBuilder : ScriptBuilder := { script := [], err := none }

/-- `ScriptBuilder.AddOp`. -/
def ScriptBuilder.AddOp (b : ScriptBuilder) (opcode : Byte) : ScriptBuilder :=
  if b.err.isSome then b
  else if b.script.length + 1 > MaxScriptSize then
    { b with err := some ScriptError.notCanonicalOp }
  else { b with script := b.script ++ [opcode] }

/-- The function `canonicalDataSize` of scriptbuilder.go. -/
def canonicalDataSize (data : List Byte) : Nat :=
  let dataLen := data.length
  if dataLen = 0 then 1
  else if dataLen = 1 ∧ (data.headD 0).val ≤ 16 then 1
  else if dataLen = 1 ∧ (data.headD 0).val = 0x81 then 1
  else if dataLen < OP_PUSHDATA1.val then 1 + dataLen
  else if dataLen ≤ 0xff then 2 + dataLen
  else if dataLen ≤ 0xffff then 3 + dataLen
  else 5 + dataLen

/-- Little-endian bytes of `n`, `k` of them (`binary.LittleEndian.PutUintN`). -/
def littleEndian : Nat → Nat → List Byte
  | 0, _ => []
  | k + 1, n => toByte n :: littleEndian k (n / 256)

/-- The unexported `ScriptBuilder.addData`: the canonical push of `data`. -/
def ScriptBuilder.addData (b : ScriptBuilder) (data : List Byte) : ScriptBuilder :=
  let dataLen := data.length
  if dataLen = 0 ∨ (dataLen = 1 ∧ (data.headD 0).val = 0) then
    { b with script := b.script ++ [OP_0] }
  else if dataLen = 1 ∧ (data.headD 0).val ≤ 16 then
    { b with script := b.script ++ [toByte ((OP_1.val - 1) + (data.headD 0).val)] }
  else if dataLen = 1 ∧ (data.headD 0).val = 0x81 then
    { b with script := b.script ++ [OP_1NEGATE] }
  else
    let header : List Byte :=
      if dataLen < OP_PUSHDATA1.val then [toByte ((OP_DATA_1.val - 1) + dataLen)]
      else if dataLen ≤ 0xff then [OP_PUSHDATA1, toByte dataLen]
      else if dataLen ≤ 0xffff then OP_PUSHDATA2 :: littleEndian 2 (dataLen % 2 ^ 16)
      else OP_PUSHDATA4 :: littleEndian 4 (dataLen % 2 ^ 32)
    { b with script := b.script ++ header ++ data }

/-- `ScriptBuilder.AddData`. -/
def ScriptBuilder.AddData (b : ScriptBuilder) (data : List Byte) : ScriptBuilder :=
  if b.err.isSome then b
  else if b.script.length + canonicalDataSize data > MaxScriptSize then
    { b with err := some ScriptError.notCanonicalDataScriptSize }
  else if data.length > MaxScriptElementSize then
    { b with err := some ScriptError.notCanonicalDataElementSize }
  else b.addData data

/-- `ScriptBuilder.Script`: the Go pair `(script, err)`, read the way every
caller in btc.go reads it (the script is used only when `err` is nil). -/
def ScriptBuilder.Script (b : ScriptBuilder) : Except ScriptError (List Byte) :=
  match b.err with
  | some e => .error e
  | none => .ok b.script

/-! ## btc.go: newScript -/

/-- The function `newScript` of btc.go. It is unfolded on request only: its
callers match on its result, and reducing the seven builder steps on an
unknown identifier is of no use to them. -/
@[irreducible] def newScript (uuid : UUID) (pkHash : List Byte) : Except ScriptError (List Byte) :=
  let b := NewScriptBuilder
  let b := b.AddData uuid.val
  let b := b.AddOp OP_DROP
  let b := b.AddOp OP_DUP
  let b := b.AddOp OP_HASH160
  let b := b.AddData pkHash
  let b := b.AddOp OP_EQUALVERIFY
  let b := b.AddOp OP_CHECKSIG
  b.Script

/-! ## encoding/hex (Go standard library) -/

/-- The constant `hextable` of encoding/hex: `"0123456789abcdef"`. -/
def hextable : List Byte :=
  [0x30, 0x31, 0x32, 0x33, 0x34, 0x35, 0x36, 0x37, 0x38, 0x39, 0x61, 0x62, 0x63, 0x64, 0x65, 0x66]

/-- `hex.EncodeToString`: two lower-case hex digits per byte, high nibble first. -/
def EncodeToString : List Byte → List Byte
  | [] => []
  | v :: rest => hextable.getD (v.val / 16) 0 :: hextable.getD (v.val % 16) 0 :: EncodeToString rest

/-- The errors of encoding/hex: `InvalidByteError` and `ErrLength`. -/
inductive HexError where
  | InvalidByteError (c : Byte)
  | ErrLength
  deriving DecidableEq, Repr

/-- The function `fromHexChar` of encoding/hex; `none` is its `ok = false`. -/
def fromHexChar (c : Byte) : Option Nat :=
  if 0x30 ≤ c.val ∧ c.val ≤ 0x39 then some (c.val - 0x30)
  else if 0x61 ≤ c.val ∧ c.val ≤ 0x66 then some (c.val - 0x61 + 10)
  else if 0x41 ≤ c.val ∧ c.val ≤ 0x46 then some (c.val - 0x41 + 10)
  else none

/-- `hex.DecodeString`: pairs of hex digits from the left; the first bad digit
is reported, and an odd length is reported only when every digit is good up to
the last one. The bytes returned next to an error are dropped, as both callers
in eth.go drop them. -/
def DecodeString : List Byte → Except HexError (List Byte)
  | [] => .ok []
  | [p] =>
    match fromHexChar p with
    | none => .error (.InvalidByteError p)
    | some _ => .error .ErrLength
  | p :: q :: rest =>
    match fromHexChar p with
    | none => .error (.InvalidByteError p)
    | some a =>
      match fromHexChar q with
      | none => .error (.InvalidByteError q)
      | some b =>
        match DecodeString rest with
        | .error e => .error e
        | .ok bs => .ok (toByte (a * 16 + b) :: bs)

/-! ## go-ethereum crypto: HexToECDSA -/

/-- The order `secp256k1N` of the curve group. -/
def secp256k1N : Nat :=
  0xFFFFFFFFFFFFFFFFFFFFFFFFFFFFFFFEBAAEDCE6AF48A03BBFD25E8CD0364141

/-- `big.Int.SetBytes`: the big-endian unsigned value of a byte string. -/
def SetBytes (d : List Byte) : Nat := d.foldl (fun acc b => acc * 256 + b.val) 0

/-- The errors of `crypto.HexToECDSA`. -/
inductive EcdsaError where
  | invalidHexString (cause : HexError)
  | invalidLength
  | invalidPrivateKeyGeN
  | invalidPrivateKeyZeroOrNegative
  deriving DecidableEq, Repr

/-- An `*ecdsa.PrivateKey` on secp256k1, given by its scalar `D` (the public
key is a function of `D`). -/
structure PrivateKey where
  D : Nat
  deriving DecidableEq, Repr

/-- `crypto.ToECDSA`, that is `toECDSA(d, true)`: exactly 256 bits, below the
group order, not zero. -/
def ToECDSA (d : List Byte) : Except EcdsaError PrivateKey :=
  if 8 * d.length ≠ 256 then .error .invalidLength
  else if SetBytes d ≥ secp256k1N then .error .invalidPrivateKeyGeN
  else if SetBytes d ≤ 0 then .error .invalidPrivateKeyZeroOrNegative
  else .ok { D := SetBytes d }

/-- `crypto.HexToECDSA`. -/
def HexToECDSA (hexkey : List Byte) : Except EcdsaError PrivateKey :=
  match DecodeString hexkey with
  | .error e => .error (.invalidHexString e)
  | .ok b => ToECDSA b

/-! ## eth.go: ethGenerator -/

/-- What a Go call comes to: a value with a nil error, a non-nil error, or a
run-time panic. -/
inductive Go (ε α : Type) where
  | ok (a : α)
  | err (e : ε)
  | panic
  deriving DecidableEq, Repr

/-- Errors returned by the functions of eth.go; `chain` carries an error of
the chain client (beth). -/
inductive EthError (χ : Type) where
  | invalidPrivatekey (cause : HexError)
  | failedToGenerateNewPrivateKey (cause : EcdsaError)
  | failedToCreateBethAccount (cause : EthError χ)
  | failedToGeneratePrivateKey (cause : EcdsaError)
  | chain (e : χ)
  deriving DecidableEq, Repr

structure ethGenerator where
  privateKey : List Byte
  deriving DecidableEq, Repr

def NewETHGenerator (privateKey : List Byte) : ethGenerator := { privateKey := privateKey }

/-- `ethGenerator.GenerateAddress`. The slice expression `privKeyBytes[16:]`
panics when `privKeyBytes` is shorter than 16 bytes. `PubkeyToAddress` stands
for `crypto.PubkeyToAddress(privKey.PublicKey).String()`. -/
def ethGenerator.GenerateAddress {χ : Type} (PubkeyToAddress : PrivateKey → List Byte)
    (generator : ethGenerator) (uuid : UUID) : Go (EthError χ) (List Byte) :=
  match DecodeString generator.privateKey with
  | .error e => .err (.invalidPrivatekey e)
  | .ok privKeyBytes =>
    if privKeyBytes.length < 16 then .panic
    else
      match HexToECDSA (EncodeToString (uuid.val ++ privKeyBytes.drop 16)) with
      | .error e => .err (.failedToGenerateNewPrivateKey e)
      | .ok privKey => .ok (PubkeyToAddress privKey)

/-! ## The outside world -/

/-- The state a collector runs in: the state of the chain behind the client
(`world`, abstract) and the calls made to the client so far, oldest first. -/
structure Sys (W E : Type) where
  world : W
  trace : List E

/-- Two's-complement wrap-around of a Go `int64` (and of `int` on a 64-bit
platform). -/
def wrapInt64 (x : Int) : Int := (2 ^ 63 + x) % 2 ^ 64 - 2 ^ 63

/-! ## eth.go: ethCollector -/

structure ethCollector where
  url : List Byte
  privateKey : List Byte
  tokenAddressesOrAliases : List (List Byte)
  deriving DecidableEq, Repr

def NewETHCollector (privateKey url : List Byte) (tokenAddressesOrAliases : List (List Byte)) :
    ethCollector :=
  { privateKey := privateKey, url := url, tokenAddressesOrAliases := tokenAddressesOrAliases }

/-- A `beth.Account`: the endpoint and the key it was made from. -/
structure EthAccount where
  url : List Byte
  key : PrivateKey
  deriving DecidableEq, Repr

/-- The chain client `beth` (an external collaborator): each call that
reaches the chain takes the world and returns an error or a result, and the
next world. `value = none` is the Go `nil` amount (the whole balance). The
context (deadline, cancellation) is part of the world; an expired deadline is
one of the errors. -/
structure Beth (W χ : Type) where
  NewAccount : List Byte → PrivateKey → W → Option χ × W
  Address : EthAccount → List Byte
  HexToAddress : List Byte → List Byte
  Transfer : EthAccount → List Byte → Option Int → Int → W → Option χ × W
  BalanceAt : EthAccount → W → Except χ Int × W
  NewERC20 : EthAccount → List Byte → W → Option χ × W
  ERC20BalanceOf : EthAccount → List Byte → List Byte → W → Except χ Int × W
  ERC20Transfer : EthAccount → List Byte → List Byte → Option Int → W → Option χ × W

/-- The calls eth.go makes to the chain client. -/
inductive EthEvent where
  | NewAccount (url : List Byte) (key : PrivateKey)
  | Transfer (sender : EthAccount) (dest : List Byte) (value : Option Int) (confirmBlocks : Int)
  | BalanceAt (account : EthAccount)
  | NewERC20 (account : EthAccount) (token : List Byte)
  | ERC20BalanceOf (account : EthAccount) (token : List Byte) (who : List Byte)
  | ERC20Transfer (account : EthAccount) (token : List Byte) (dest : List Byte) (value : Option Int)
  deriving DecidableEq, Repr

/-- `ethCollector.newAccount`. -/
def ethCollector.newAccount {W χ : Type} (L : Beth W χ) (collector : ethCollector)
    (privKey : List Byte) (s : Sys W EthEvent) : Except (EthError χ) EthAccount × Sys W EthEvent :=
  match HexToECDSA privKey with
  | .error e => (.error (.failedToGeneratePrivateKey e), s)
  | .ok key =>
    match L.NewAccount collector.url key s.world with
    | (some e, w) => (.error (.chain e), ⟨w, s.trace ++ [.NewAccount collector.url key]⟩)
    | (none, w) => (.ok ⟨collector.url, key⟩, ⟨w, s.trace ++ [.NewAccount collector.url key]⟩)

/-- The loop of `ethCollector.depositFees` over `userAccounts`. -/
def ethCollector.depositFees.loop {W χ : Type} (L : Beth W χ) (account : EthAccount) (amount : Int) :
    List EthAccount → Sys W EthEvent → Option (EthError χ) × Sys W EthEvent
  | [], s => (none, s)
  | userAccount :: rest, s =>
    match L.Transfer account (L.Address userAccount) (some amount) 0 s.world with
    | (some e, w) =>
      (some (.chain e), ⟨w, s.trace ++ [.Transfer account (L.Address userAccount) (some amount) 0]⟩)
    | (none, w) =>
      ethCollector.depositFees.loop L account amount rest
        ⟨w, s.trace ++ [.Transfer account (L.Address userAccount) (some amount) 0]⟩

/-- `ethCollector.depositFees`; `none` is the nil error. The product
`1200000*len(...)` is a Go `int`. -/
def ethCollector.depositFees {W χ : Type} (L : Beth W χ) (collector : ethCollector)
    (userAccounts : List EthAccount) (s : Sys W EthEvent) : Option (EthError χ) × Sys W EthEvent :=
  let amount : Int :=
    wrapInt64 (1200000 * (collector.tokenAddressesOrAliases.length : Int)) * 1000000000
  if amount ≤ 0 then (none, s)
  else
    match collector.newAccount L collector.privateKey s with
    | (.error e, s1) => (some e, s1)
    | (.ok account, s1) => ethCollector.depositFees.loop L account amount userAccounts s1

/-- The function `withdrawEther`. -/
def withdrawEther {W χ : Type} (L : Beth W χ) (address : List Byte) (account : EthAccount)
    (s : Sys W EthEvent) : Option (EthError χ) × Sys W EthEvent :=
  match L.BalanceAt account s.world with
  | (.error e, w) => (some (.chain e), ⟨w, s.trace ++ [.BalanceAt account]⟩)
  | (.ok bal, w) =>
    if bal = 0 then (none, ⟨w, s.trace ++ [.BalanceAt account]⟩)
    else
      match L.Transfer account (L.HexToAddress address) none 0 w with
      | (some e, w1) =>
        (some (.chain e),
          ⟨w1, s.trace ++ [.BalanceAt account, .Transfer account (L.HexToAddress address) none 0]⟩)
      | (none, w1) =>
        (none, ⟨w1, s.trace ++ [.BalanceAt account, .Transfer account (L.HexToAddress address) none 0]⟩)

/-- The function `withdrawERC20`. -/
def withdrawERC20 {W χ : Type} (L : Beth W χ) (address : List Byte) (account : EthAccount)
    (tokenAddressOrAlias : List Byte) (s : Sys W EthEvent) :
    Option (EthError χ) × Sys W EthEvent :=
  match L.NewERC20 account tokenAddressOrAlias s.world with
  | (some e, w) => (some (.chain e), ⟨w, s.trace ++ [.NewERC20 account tokenAddressOrAlias]⟩)
  | (none, w) =>
    let t1 := s.trace ++ [.NewERC20 account tokenAddressOrAlias,
      .ERC20BalanceOf account tokenAddressOrAlias (L.Address account)]
    match L.ERC20BalanceOf account tokenAddressOrAlias (L.Address account) w with
    | (.error e, w1) => (some (.chain e), ⟨w1, t1⟩)
    | (.ok bal, w1) =>
      if bal = 0 then (none, ⟨w1, t1⟩)
      else
        let t2 := t1 ++ [.ERC20Transfer account tokenAddressOrAlias (L.HexToAddress address) none]
        match L.ERC20Transfer account tokenAddressOrAlias (L.HexToAddress address) none w1 with
        | (some e, w2) => (some (.chain e), ⟨w2, t2⟩)
        | (none, w2) => (none, ⟨w2, t2⟩)

/-- The function `collectEther`. -/
def collectEther {W χ : Type} (L : Beth W χ) (address : List Byte) :
    List EthAccount → Sys W EthEvent → Option (EthError χ) × Sys W EthEvent
  | [], s => (none, s)
  | account :: rest, s =>
    match withdrawEther L address account s with
    | (some e, s1) => (some e, s1)
    | (none, s1) => collectEther L address rest s1

/-- The function `collectERC20`. -/
def collectERC20 {W χ : Type} (L : Beth W χ) (address : List Byte) (tokenAddressOrAlias : List Byte) :
    List EthAccount → Sys W EthEvent → Option (EthError χ) × Sys W EthEvent
  | [], s => (none, s)
  | account :: rest, s =>
    match withdrawERC20 L address account tokenAddressOrAlias s with
    | (some e, s1) => (some e, s1)
    | (none, s1) => collectERC20 L address tokenAddressOrAlias rest s1

/-- The first loop of `ethCollector.Collect`: one child account per
identifier, appended to `accounts`. The slice expression `privKeyBytes[16:]`
is evaluated once per identifier and panics on a key shorter than 16 bytes. -/
def ethCollector.Collect.accounts {W χ : Type} (L : Beth W χ) (collector : ethCollector)
    (privKeyBytes : List Byte) :
    List UUID → List EthAccount → Sys W EthEvent → Go (EthError χ) (List EthAccount) × Sys W EthEvent
  | [], accounts, s => (.ok accounts, s)
  | uuid :: rest, accounts, s =>
    if privKeyBytes.length < 16 then (.panic, s)
    else
      match collector.newAccount L (EncodeToString (uuid.val ++ privKeyBytes.drop 16)) s with
      | (.error e, s1) => (.err (.failedToCreateBethAccount e), s1)
      | (.ok account, s1) =>
        ethCollector.Collect.accounts L collector privKeyBytes rest (accounts ++ [account]) s1

/-- The loop of `ethCollector.Collect` over the configured tokens. -/
def ethCollector.Collect.tokens {W χ : Type} (L : Beth W χ) (address : List Byte)
    (accounts : List EthAccount) :
    List (List Byte) → Sys W EthEvent → Option (EthError χ) × Sys W EthEvent
  | [], s => (none, s)
  | tokenAddressOrAlias :: rest, s =>
    match collectERC20 L address tokenAddressOrAlias accounts s with
    | (some e, s1) => (some e, s1)
    | (none, s1) => ethCollector.Collect.tokens L address accounts rest s1

/-- `ethCollector.Collect`; `Go.ok ()` is the nil error. -/
def ethCollector.Collect {W χ : Type} (L : Beth W χ) (collector : ethCollector)
    (address : List Byte) (uuids : List UUID) (s : Sys W EthEvent) :
    Go (EthError χ) Unit × Sys W EthEvent :=
  match DecodeString collector.privateKey with
  | .error e => (.err (.invalidPrivatekey e), s)
  | .ok privKeyBytes =>
    match ethCollector.Collect.accounts L collector privKeyBytes uuids [] s with
    | (.panic, s1) => (.panic, s1)
    | (.err e, s1) => (.err e, s1)
    | (.ok accounts, s1) =>
      match collector.depositFees L accounts s1 with
      | (some e, s2) => (.err e, s2)
      | (none, s2) =>
        match ethCollector.Collect.tokens L address accounts collector.tokenAddressesOrAliases s2 with
        | (some e, s3) => (.err e, s3)
        | (none, s3) =>
          match collectEther L address accounts s3 with
          | (some e, s4) => (.err e, s4)
          | (none, s4) => (.ok (), s4)

/-! ## btc.go -/

/-- The constant `DefaultBitcoinFee`. -/
def DefaultBitcoinFee : Int := 10000

/-- The network parameters of chaincfg that btc.go is handed as pointers. -/
inductive Net where
  | MainNetParams
  | TestNet3Params
  | RegressionNetParams
  | SimNetParams
  deriving DecidableEq, Repr

/-- A 20-byte hash (`[ripemd160.Size]byte`). -/
abbrev Hash160T := { bs : List Byte // bs.length = 20 }

/-- A 32-byte witness program. -/
abbrev Hash256T := { bs : List Byte // bs.length = 32 }

/-- A `btcutil.AddressPubKey`, given by what its `serialize()` returns (33
bytes compressed, 65 bytes uncompressed or hybrid) and its network. -/
structure AddressPubKey where
  serialized : { bs : List Byte // bs.length = 33 ∨ bs.length = 65 }
  net : Net
  deriving DecidableEq

/-- The concrete address types of btcutil behind the interface
`btcutil.Address`, as `btcutil.DecodeAddress` returns them. -/
inductive Address where
  | AddressPubKeyHash (hash : Hash160T) (net : Net)
  | AddressScriptHash (hash : Hash160T) (net : Net)
  | AddressPubKey (a : AddressPubKey)
  | AddressWitnessPubKeyHash (witnessProgram : Hash160T) (net : Net)
  | AddressWitnessScriptHash (witnessProgram : Hash256T) (net : Net)
  deriving DecidableEq

/-- Errors returned by the functions of btc.go; `lib` carries an error of
btcutil or of the chain client (libbtc). -/
inductive BtcError (χ : Type) where
  | unsupportedNetwork
  | addressNotIntendedForNet
  | notP2PKH
  | script (e : ScriptError)
  | hashSize
  | lib (e : χ)
  deriving DecidableEq, Repr

/-- The pure part of btcec and btcutil (external): key decoding and
serialization, hashing, address parsing and printing. `K` is the type of
public keys. -/
structure Btcutil (χ K : Type) where
  DecodeWIF : List Byte → Except χ PrivateKey
  PubKey : PrivateKey → K
  SerializeCompressed : K → List Byte
  SerializeUncompressed : K → List Byte
  Hash160 : List Byte → Hash160T
  NewAddressPubKey : List Byte → Net → Except χ AddressPubKey
  DecodeAddress : List Byte → Net → Except χ Address
  EncodeAddress : Address → List Byte

def OP_EQUAL : Byte := 0x87

/-- `txscript.PayToAddrScript` on the address types above: the standard
payout script of each. -/
def PayToAddrScript : Address → Except ScriptError (List Byte)
  | .AddressPubKeyHash hash _ =>
    ((((NewScriptBuilder.AddOp OP_DUP).AddOp OP_HASH160).AddData hash.val).AddOp
      OP_EQUALVERIFY).AddOp OP_CHECKSIG |>.Script
  | .AddressScriptHash hash _ =>
    ((NewScriptBuilder.AddOp OP_HASH160).AddData hash.val).AddOp OP_EQUAL |>.Script
  | .AddressPubKey a =>
    (NewScriptBuilder.AddData a.serialized.val).AddOp OP_CHECKSIG |>.Script
  | .AddressWitnessPubKeyHash witnessProgram _ =>
    (NewScriptBuilder.AddOp OP_0).AddData witnessProgram.val |>.Script
  | .AddressWitnessScriptHash witnessProgram _ =>
    (NewScriptBuilder.AddOp OP_0).AddData witnessProgram.val |>.Script

/-- `btcutil.NewAddressScriptHash`: the hash of the script, checked to be
`ripemd160.Size` bytes long. -/
def NewAddressScriptHash {χ K : Type} (U : Btcutil χ K) (serializedScript : List Byte)
    (net : Net) : Except (BtcError χ) Address :=
  let scriptHash := U.Hash160 serializedScript
  if scriptHash.val.length ≠ 20 then .error .hashSize
  else .ok (.AddressScriptHash scriptHash net)

/-- The string `"testnet"`. -/
def str_testnet : List Byte := [0x74, 0x65, 0x73, 0x74, 0x6e, 0x65, 0x74]

/-- The string `"testnet3"`. -/
def str_testnet3 : List Byte := [0x74, 0x65, 0x73, 0x74, 0x6e, 0x65, 0x74, 0x33]

/-- The string `"mainnet"`. -/
def str_mainnet : List Byte := [0x6d, 0x61, 0x69, 0x6e, 0x6e, 0x65, 0x74]

/-- The function `networkParams`. -/
def networkParams {χ : Type} (network : List Byte) : Except (BtcError χ) Net :=
  if network = str_testnet ∨ network = str_testnet3 then .ok .TestNet3Params
  else if network = str_mainnet then .ok .MainNetParams
  else .error .unsupportedNetwork

/-- The function `SerializedPublicKey`. -/
def SerializedPublicKey {χ K : Type} (U : Btcutil χ K) (pubKey : K) (net : Net) :
    Except (BtcError χ) (List Byte) :=
  match net with
  | .MainNetParams => .ok (U.SerializeCompressed pubKey)
  | .TestNet3Params => .ok (U.SerializeUncompressed pubKey)
  | _ => .error .unsupportedNetwork

/-- The function `addressToPubKeyHash`; the result is the hash and the network
of the `*btcutil.AddressPubKeyHash`. -/
def addressToPubKeyHash {χ K : Type} (U : Btcutil χ K) (addrString : List Byte)
    (chainParams : Net) : Except (BtcError χ) (Hash160T × Net) :=
  match U.DecodeAddress addrString chainParams with
  | .error _ => .error .addressNotIntendedForNet
  | .ok btcAddr =>
    match btcAddr with
    | .AddressPubKeyHash hash net => .ok (hash, net)
    | _ => .error .notP2PKH

structure btcGenerator where
  address : List Byte
  network : List Byte
  deriving DecidableEq, Repr

/-- `btcGenerator.GenerateAddress`. -/
def btcGenerator.GenerateAddress {χ K : Type} (U : Btcutil χ K) (generator : btcGenerator)
    (uuid : UUID) : Except (BtcError χ) (List Byte) :=
  match networkParams generator.network with
  | .error e => .error e
  | .ok net =>
    match addressToPubKeyHash U generator.address net with
    | .error e => .error e
    | .ok pkHash =>
      match newScript uuid pkHash.1.val with
      | .error e => .error (.script e)
      | .ok userSpecificScript =>
        match NewAddressScriptHash U userSpecificScript net with
        | .error e => .error e
        | .ok address => .ok (U.EncodeAddress address)

/-- A `wire.TxOut`. -/
structure TxOut where
  Value : Int
  PkScript : List Byte
  deriving DecidableEq, Repr

/-- A `wire.TxIn`. -/
structure TxIn where
  PreviousOutPoint : List Byte × Nat
  SignatureScript : List Byte
  Sequence : Nat
  deriving DecidableEq, Repr

/-- A `wire.MsgTx`. -/
structure MsgTx where
  Version : Int
  TxIn : List TxIn
  TxOut : List TxOut
  LockTime : Nat
  deriving DecidableEq, Repr

/-- `MsgTx.AddTxOut`. -/
def MsgTx.AddTxOut (msgTx : MsgTx) (txOut : Hdwallet.TxOut) : MsgTx :=
  { msgTx with TxOut := msgTx.TxOut ++ [txOut] }

/-- A Go `int64`. -/
abbrev Int64 := { i : Int // -2 ^ 63 ≤ i ∧ i < 2 ^ 63 }

/-- A `libbtc.Account`: the network name of its client and its key. -/
structure BtcAccount where
  network : List Byte
  key : PrivateKey
  deriving DecidableEq, Repr

/-- The chain client `libbtc` (an external collaborator). `SendTransaction`
is given the script, the fee and the two callbacks btc.go passes (its other
two callback arguments are nil in btc.go); a callback reads and changes the
transaction under construction and may query the chain. -/
structure Libbtc (W χ : Type) where
  NetworkParams : BtcAccount → Net
  Balance : BtcAccount → List Byte → Int → W → Except χ Int64 × W
  ScriptSpent : BtcAccount → List Byte → W → Except χ Bool × W
  SendTransaction : BtcAccount → List Byte → Int →
    (MsgTx → W → (Bool × MsgTx) × W) → (MsgTx → W → (Bool × MsgTx) × W) → W → Option χ × W

/-- The calls `collectBTC` makes to `SendTransaction`. -/
inductive BtcEvent where
  | SendTransaction (script : List Byte) (fee : Int)
  deriving DecidableEq, Repr

/-- The first closure `collectBTC` hands to `SendTransaction`: the funding
predicate. The subtraction is an `int64` subtraction. -/
def collectBTC.preCond {W χ K : Type} (U : Btcutil χ K) (B : Libbtc W χ) (account : BtcAccount)
    (scriptAddress : Address) (payToAddrScript : List Byte) (msgTx : MsgTx) (w : W) :
    (Bool × MsgTx) × W :=
  match B.Balance account (U.EncodeAddress scriptAddress) 0 w with
  | (.error _, w1) => ((false, msgTx), w1)
  | (.ok balance, w1) =>
    if balance.val < DefaultBitcoinFee then ((false, msgTx), w1)
    else
      ((true, msgTx.AddTxOut ⟨wrapInt64 (balance.val - DefaultBitcoinFee), payToAddrScript⟩), w1)

/-- The second closure `collectBTC` hands to `SendTransaction`: has the script
been spent. -/
def collectBTC.postCond {W χ K : Type} (U : Btcutil χ K) (B : Libbtc W χ) (account : BtcAccount)
    (scriptAddress : Address) (msgTx : MsgTx) (w : W) : (Bool × MsgTx) × W :=
  match B.ScriptSpent account (U.EncodeAddress scriptAddress) w with
  | (.error _, w1) => ((false, msgTx), w1)
  | (.ok spent, w1) => ((spent, msgTx), w1)

/-- The loop of `collectBTC` over `scripts`. -/
def collectBTC.loop {W χ K : Type} (U : Btcutil χ K) (B : Libbtc W χ) (account : BtcAccount)
    (payToAddrScript : List Byte) :
    List (List Byte) → Sys W BtcEvent → Option (BtcError χ) × Sys W BtcEvent
  | [], s => (none, s)
  | script :: rest, s =>
    match NewAddressScriptHash U script (B.NetworkParams account) with
    | .error e => (some e, s)
    | .ok scriptAddress =>
      match B.SendTransaction account script DefaultBitcoinFee
          (collectBTC.preCond U B account scriptAddress payToAddrScript)
          (collectBTC.postCond U B account scriptAddress) s.world with
      | (some e, w) => (some (.lib e), ⟨w, s.trace ++ [.SendTransaction script DefaultBitcoinFee]⟩)
      | (none, w) =>
        collectBTC.loop U B account payToAddrScript rest
          ⟨w, s.trace ++ [.SendTransaction script DefaultBitcoinFee]⟩

/-- The function `collectBTC`; `none` is the nil error. -/
def collectBTC {W χ K : Type} (U : Btcutil χ K) (B : Libbtc W χ) (address : Address)
    (scripts : List (List Byte)) (account : BtcAccount) (s : Sys W BtcEvent) :
    Option (BtcError χ) × Sys W BtcEvent :=
  match PayToAddrScript address with
  | .error e => (some (.script e), s)
  | .ok payToAddrScript => collectBTC.loop U B account payToAddrScript scripts s

structure btcCollector where
  wif : List Byte
  network : List Byte
  deriving DecidableEq, Repr

/-- The loop of `btcCollector.Collect` building one script per identifier. -/
def btcCollector.Collect.scripts {χ : Type} (pkHash : Hash160T) :
    List UUID → List (List Byte) → Except (BtcError χ) (List (List Byte))
  | [], scripts => .ok scripts
  | uuid :: rest, scripts =>
    match newScript uuid pkHash.val with
    | .error e => .error (.script e)
    | .ok script => btcCollector.Collect.scripts pkHash rest (scripts ++ [script])

/-- `btcCollector.Collect`; `none` is the nil error. -/
def btcCollector.Collect {W χ K : Type} (U : Btcutil χ K) (B : Libbtc W χ)
    (collector : btcCollector) (address : List Byte) (uuids : List UUID) (s : Sys W BtcEvent) :
    Option (BtcError χ) × Sys W BtcEvent :=
  match networkParams collector.network with
  | .error e => (some e, s)
  | .ok net =>
    match U.DecodeWIF collector.wif with
    | .error e => (some (.lib e), s)
    | .ok wif =>
      match SerializedPublicKey U (U.PubKey wif) net with
      | .error e => (some e, s)
      | .ok pubKeyBytes =>
        match U.NewAddressPubKey pubKeyBytes net with
        | .error e => (some (.lib e), s)
        | .ok AddrPubKey =>
          match U.DecodeAddress address net with
          | .error e => (some (.lib e), s)
          | .ok addr =>
            let pkHash := U.Hash160 AddrPubKey.serialized.val
            match btcCollector.Collect.scripts pkHash uuids [] with
            | .error e => (some e, s)
            | .ok scripts => collectBTC U B addr scripts ⟨collector.network, wif⟩ s

/-! ## Concrete inputs and a small chain, used to run the definitions -/

/-- The identifier of sixteen zero bytes. -/
def uuidZero : UUID := ⟨List.replicate 16 0, rfl⟩

/-- The identifier of sixteen `0xff` bytes. -/
def uuidFF : UUID := ⟨List.replicate 16 255, rfl⟩

/-- A 20-byte hash: twenty bytes `0x11`. -/
def hashOnes : Hash160T := ⟨List.replicate 20 0x11, rfl⟩

/-- A libbtc client in which every address holds `bal` and `SendTransaction`
succeeds as many times as the world counts, then fails. -/
def toyLibbtc (bal : Int64) : Libbtc Nat Unit where
  NetworkParams := fun _ => .TestNet3Params
  Balance := fun _ _ _ w => (.ok bal, w)
  ScriptSpent := fun _ _ w => (.ok true, w)
  SendTransaction := fun _ _ _ _ _ w => if w = 0 then (some (), 0) else (none, w - 1)

/-- A libbtc client whose balance query fails. -/
def toyLibbtcDown : Libbtc Nat Unit where
  NetworkParams := fun _ => .TestNet3Params
  Balance := fun _ _ _ w => (.error (), w)
  ScriptSpent := fun _ _ w => (.error (), w)
  SendTransaction := fun _ _ _ _ _ w => (some (), w)

/-- A one-byte name for each network, for the toy address format below. -/
def toyNetByte : Net → Byte
  | .MainNetParams => 0
  | .TestNet3Params => 1
  | .RegressionNetParams => 2
  | .SimNetParams => 3

/-- A toy address format: a kind byte, the network byte, the payload. -/
def toyEncodeAddress : Address → List Byte
  | .AddressPubKeyHash hash net => 0 :: toyNetByte net :: hash.val
  | .AddressScriptHash hash net => 1 :: toyNetByte net :: hash.val
  | .AddressPubKey a => 2 :: toyNetByte a.net :: a.serialized.val
  | .AddressWitnessPubKeyHash witnessProgram net => 3 :: toyNetByte net :: witnessProgram.val
  | .AddressWitnessScriptHash witnessProgram net => 4 :: toyNetByte net :: witnessProgram.val

/-- The parser of the toy address format, for the two hash kinds. -/
def toyDecodeAddress (s : List Byte) (net : Net) : Except Unit Address :=
  match s with
  | kind :: nb :: payload =>
    if nb ≠ toyNetByte net then .error ()
    else if h : payload.length = 20 then
      if kind = 0 then .ok (.AddressPubKeyHash ⟨payload, h⟩ net)
      else if kind = 1 then .ok (.AddressScriptHash ⟨payload, h⟩ net)
      else .error ()
    else .error ()
  | _ => .error ()

/-- A toy 20-byte hash: the first twenty bytes, padded with zeros. -/
def toyHash160 (bs : List Byte) : Hash160T :=
  ⟨(bs ++ List.replicate 20 0).take 20, by simp⟩

/-- A toy btcutil: a WIF is 32 key bytes, a public key is the scalar itself,
serialized as a prefix byte and 32 or 64 copies of its low byte. -/
def toyBtcutil : Btcutil Unit Nat where
  DecodeWIF := fun s => if s.length = 32 then .ok ⟨SetBytes s⟩ else .error ()
  PubKey := fun k => k.D
  SerializeCompressed := fun k => 0x02 :: List.replicate 32 (toByte k)
  SerializeUncompressed := fun k => 0x04 :: List.replicate 64 (toByte k)
  Hash160 := toyHash160
  NewAddressPubKey := fun bs net =>
    if h : bs.length = 33 ∨ bs.length = 65 then .ok ⟨⟨bs, h⟩, net⟩ else .error ()
  DecodeAddress := toyDecodeAddress
  EncodeAddress := toyEncodeAddress

/-- The empty transaction. -/
def emptyTx : MsgTx := { Version := 1, TxIn := [], TxOut := [], LockTime := 0 }

/-- A toy account. -/
def toyBtcAccount : BtcAccount := { network := str_testnet, key := ⟨1⟩ }

/-- A balance above the fee. -/
def bal25000 : Int64 := ⟨25000, by norm_num⟩

/-- A balance equal to the fee. -/
def bal10000 : Int64 := ⟨10000, by norm_num⟩

/-- A balance below the fee. -/
def bal9999 : Int64 := ⟨9999, by norm_num⟩

/-- A toy script-hash address. -/
def toyScriptAddress : Address := .AddressScriptHash hashOnes .TestNet3Params

/-- The call of `SendTransaction` that the body of the loop of `collectBTC`
makes for `script` (btc.go lines 129 to 158), as a function of the world. -/
def collectBTC.call {W χ K : Type} (U : Btcutil χ K) (B : Libbtc W χ) (account : BtcAccount)
    (payToAddrScript : List Byte) (script : List Byte) (w : W) : Option χ × W :=
  B.SendTransaction account script DefaultBitcoinFee
    (collectBTC.preCond U B account
      (.AddressScriptHash (U.Hash160 script) (B.NetworkParams account)) payToAddrScript)
    (collectBTC.postCond U B account
      (.AddressScriptHash (U.Hash160 script) (B.NetworkParams account))) w

/-- The calls `call` on the scripts of a list, made one after the other from
world `w`, all return a nil error and leave the world `w1`. -/
def AllSucceed {W χ : Type} (call : List Byte → W → Option χ × W) :
    List (List Byte) → W → W → Prop
  | [], w, w1 => w1 = w
  | script :: rest, w, w1 => ∃ w2, call script w = (none, w2) ∧ AllSucceed call rest w2 w1

/-- The 64 hex characters of the 32-byte key `00 .. 00 01` (the scalar 1). -/
def masterKeyOneHex : List Byte := List.replicate 62 0x30 ++ [0x30, 0x31]

/-- The 64 hex characters of the 32-byte key whose bytes are all `0x11`. -/
def masterKeyOnesHex : List Byte := List.replicate 64 0x31

/-- A beth client in which every call succeeds and every balance is `bal`;
the address of an account is twenty copies of the low byte of its scalar. -/
def toyBeth (bal : Int) : Beth Unit Unit where
  NewAccount := fun _ _ w => (none, w)
  Address := fun a => List.replicate 20 (toByte a.key.D)
  HexToAddress := fun s => s
  Transfer := fun _ _ _ _ w => (none, w)
  BalanceAt := fun _ w => (.ok bal, w)
  NewERC20 := fun _ _ w => (none, w)
  ERC20BalanceOf := fun _ _ _ w => (.ok bal, w)
  ERC20Transfer := fun _ _ _ _ w => (none, w)

/-- A toy address printer for keys. -/
def toyPubkeyToAddress (key : PrivateKey) : List Byte := List.replicate 20 (toByte key.D)

/-- The string `"url"`. -/
def str_url : List Byte := [0x75, 0x72, 0x6c]

/-- The token alias `"REN"`. -/
def str_REN : List Byte := [0x52, 0x45, 0x4e]

/-- The token alias `"DAI"`. -/
def str_DAI : List Byte := [0x44, 0x41, 0x49]

/-- The initial state of the toy chain: nothing called yet. -/
def toySys : Sys Unit EthEvent := ⟨(), []⟩

/-- A funding transfer: a `Transfer` of a stated amount (the withdrawals of
eth.go pass the nil amount). -/
def EthEvent.isFunding : EthEvent → Bool
  | .Transfer _ _ (some _) _ => true
  | _ => false

/-- A withdrawal: a `Transfer` of the whole balance or a token transfer. -/
def EthEvent.isWithdrawal : EthEvent → Bool
  | .Transfer _ _ none _ => true
  | .ERC20Transfer _ _ _ _ => true
  | _ => false

/-- The identifier `00 .. 00 01`. -/
def uuidOne : UUID := ⟨List.replicate 15 0 ++ [1], by decide⟩

/-- The state `s1` continues `s` by calls none of which is a funding transfer. -/
def NoFundingBetween {W : Type} (s s1 : Sys W EthEvent) : Prop :=
  ∃ evs, s1.trace = s.trace ++ evs ∧ ∀ e ∈ evs, EthEvent.isFunding e = false

/-- A toy WIF string: 32 key bytes `0x11`. -/
def toyWifStr : List Byte := List.replicate 32 0x11

/-- The key the toy WIF decodes to. -/
def toyWifKey : PrivateKey := ⟨SetBytes toyWifStr⟩

/-- The toy uncompressed serialization of the public key of `toyWifKey`. -/
def toyPubKeyBytes : List Byte := toyBtcutil.SerializeUncompressed (toyBtcutil.PubKey toyWifKey)

/-- The toy public-key address of `toyPubKeyBytes` on testnet. -/
def toyApk : AddressPubKey := ⟨⟨toyPubKeyBytes, Or.inr (by decide)⟩, .TestNet3Params⟩

/-- A toy destination: the pay-to-public-key-hash address of `hashOnes`. -/
def toyDest : Address := .AddressPubKeyHash hashOnes .TestNet3Params

/-- The initial state of the toy bitcoin chain: three sends will succeed. -/
def toyBtcSys : Sys Nat BtcEvent := ⟨3, []⟩

/-! # Theorems -/

/-! ## The script builder on short pushes -/

theorem AddOp_ok (s : List Byte) (op : Byte) (hl : s.length < 10000) :
    ScriptBuilder.AddOp { script := s, err := none } op = { script := s ++ [op], err := none } := by
  have : ¬ (s.length + 1 > MaxScriptSize) := by simp [MaxScriptSize]; omega
  simp [ScriptBuilder.AddOp, this]

theorem AddData_ok (s data : List Byte) (h2 : 2 ≤ data.length) (h75 : data.length ≤ 75)
    (hl : s.length + 1 + data.length ≤ 10000) :
    ScriptBuilder.AddData { script := s, err := none } data
      = { script := s ++ [toByte data.length] ++ data, err := none } := by
  have h76 : (OP_PUSHDATA1 : Byte).val = 76 := rfl
  have h01 : (OP_DATA_1 : Byte).val = 1 := rfl
  have hc : canonicalDataSize data = 1 + data.length := by
    simp only [canonicalDataSize, h76]
    rw [if_neg (by omega), if_neg (by omega), if_neg (by omega), if_pos (by omega)]
  have h1 : ¬ (s.length + canonicalDataSize data > MaxScriptSize) := by
    rw [hc]; simp [MaxScriptSize]; omega
  have h3 : ¬ (data.length > MaxScriptElementSize) := by simp [MaxScriptElementSize]; omega
  simp only [ScriptBuilder.AddData, Option.isSome_none, Bool.false_eq_true, if_false, h1, h3,
    ScriptBuilder.addData, h76, h01]
  rw [if_neg (by omega), if_neg (by omega), if_neg (by omega), if_pos (by omega)]
  simp

/-- The bytes `newScript` builds from a 16-byte identifier and a 20-byte hash. -/
theorem newScript_eq (u : UUID) (h : List Byte) (hh : h.length = 20) :
    newScript u h
      = .ok ([(0x10 : Byte)] ++ u.val ++ [0x75, 0x76, 0xa9, 0x14] ++ h ++ [0x88, 0xac]) := by
  obtain ⟨ub, hu⟩ := u
  simp only [newScript, NewScriptBuilder]
  rw [AddData_ok _ _ (by omega) (by omega) (by simp; omega)]
  rw [AddOp_ok _ _ (by simp; omega)]
  rw [AddOp_ok _ _ (by simp; omega)]
  rw [AddOp_ok _ _ (by simp; omega)]
  rw [AddData_ok _ _ (by omega) (by omega) (by simp; omega)]
  rw [AddOp_ok _ _ (by simp; omega)]
  rw [AddOp_ok _ _ (by simp; omega)]
  simp [ScriptBuilder.Script, hu, hh, toByte, OP_DROP, OP_DUP, OP_HASH160, OP_EQUALVERIFY,
    OP_CHECKSIG]

/-! ## C1 -/

/-- C1: for every 16-byte identifier `u` and every 20-byte public-key hash `h`,
`newScript u h` succeeds with the 43-byte script `0x10 u 0x75 0x76 0xa9 0x14 h
0x88 0xac`: the identifier is pushed and dropped, then a pay-to-public-key-hash
check against `h` follows. -/
theorem newScript_is_tagged_p2pkh (u : UUID) (h : List Byte) (hh : h.length = 20) :
    newScript u h
        = .ok ([(0x10 : Byte)] ++ u.val ++ [OP_DROP, OP_DUP, OP_HASH160, (0x14 : Byte)] ++ h
            ++ [OP_EQUALVERIFY, OP_CHECKSIG])
      ∧ ([(0x10 : Byte)] ++ u.val ++ [OP_DROP, OP_DUP, OP_HASH160, (0x14 : Byte)] ++ h
            ++ [OP_EQUALVERIFY, OP_CHECKSIG]).length = 43
      ∧ OP_DROP = 0x75 ∧ OP_DUP = 0x76 ∧ OP_HASH160 = 0xa9 ∧ OP_EQUALVERIFY = 0x88
      ∧ OP_CHECKSIG = 0xac := by
  refine ⟨?_, ?_, rfl, rfl, rfl, rfl, rfl⟩
  · rw [newScript_eq u h hh]; rfl
  · simp [u.property, hh]

theorem newScript_is_tagged_p2pkh_witness :
    hashOnes.val.length = 20 ∧
    newScript uuidFF hashOnes.val
      = .ok ([(0x10 : Byte)] ++ uuidFF.val ++ [OP_DROP, OP_DUP, OP_HASH160, (0x14 : Byte)]
            ++ hashOnes.val ++ [OP_EQUALVERIFY, OP_CHECKSIG]) :=
  ⟨rfl, (newScript_is_tagged_p2pkh uuidFF hashOnes.val rfl).1⟩

/-! ## C3 -/

/-- C3: for a fixed 20-byte collector public-key hash `h`, two distinct
identifiers give two distinct redeem scripts: both calls of `newScript`
succeed and the scripts differ. -/
theorem newScript_injective (h : List Byte) (hh : h.length = 20) (u1 u2 : UUID) (hne : u1 ≠ u2) :
    ∃ s1 s2, newScript u1 h = .ok s1 ∧ newScript u2 h = .ok s2 ∧ s1 ≠ s2 := by
  refine ⟨_, _, newScript_eq u1 h hh, newScript_eq u2 h hh, ?_⟩
  intro heq
  apply hne
  apply Subtype.ext
  have heq2 := heq
  simp only [List.append_assoc, List.singleton_append, List.cons_append, List.cons.injEq,
    true_and] at heq2
  exact List.append_inj_left heq2 (by rw [u1.property, u2.property])

theorem newScript_injective_witness :
    ∃ s1 s2, newScript uuidZero hashOnes.val = .ok s1 ∧ newScript uuidFF hashOnes.val = .ok s2
      ∧ s1 ≠ s2 :=
  newScript_injective hashOnes.val rfl uuidZero uuidFF (by decide)

/-! ## C5 -/

/-- C5: the funding predicate `collectBTC` hands to `SendTransaction`. When the
balance query reports `b` with `b >= 10000` it returns true and appends exactly
one output, of value `b - 10000`, paying the destination script, so the fee
deducted does not exceed the balance; when `b < 10000` or when the query fails
it returns false and leaves the transaction as it was. -/
theorem collectBTC_preCond_fee {W χ K : Type} (U : Btcutil χ K) (B : Libbtc W χ)
    (account : BtcAccount) (scriptAddress : Address) (payToAddrScript : List Byte)
    (msgTx : MsgTx) (w : W) :
    (∀ (b : Int64) (w1 : W), B.Balance account (U.EncodeAddress scriptAddress) 0 w = (.ok b, w1) →
        DefaultBitcoinFee ≤ b.val →
        collectBTC.preCond U B account scriptAddress payToAddrScript msgTx w
            = ((true, { msgTx with
                  TxOut := msgTx.TxOut ++ [⟨b.val - 10000, payToAddrScript⟩] }), w1)
          ∧ 0 ≤ b.val - 10000 ∧ DefaultBitcoinFee = 10000)
    ∧ (∀ (b : Int64) (w1 : W), B.Balance account (U.EncodeAddress scriptAddress) 0 w = (.ok b, w1) →
        b.val < DefaultBitcoinFee →
        collectBTC.preCond U B account scriptAddress payToAddrScript msgTx w
            = ((false, msgTx), w1))
    ∧ (∀ (e : χ) (w1 : W), B.Balance account (U.EncodeAddress scriptAddress) 0 w = (.error e, w1) →
        collectBTC.preCond U B account scriptAddress payToAddrScript msgTx w
            = ((false, msgTx), w1)) := by
  refine ⟨?_, ?_, ?_⟩
  · intro b w1 hb hge
    have h1 : ¬ (b.val < DefaultBitcoinFee) := not_lt.mpr hge
    have hfee : DefaultBitcoinFee = 10000 := rfl
    have h2 := b.property.1
    have h3 := b.property.2
    have hw : wrapInt64 (b.val - DefaultBitcoinFee) = b.val - 10000 := by
      rw [hfee] at hge ⊢
      unfold wrapInt64
      omega
    refine ⟨?_, by rw [hfee] at hge; omega, rfl⟩
    simp only [collectBTC.preCond, hb, h1, if_false, hw, MsgTx.AddTxOut]
  · intro b w1 hb hlt
    simp only [collectBTC.preCond, hb, hlt, if_true]
  · intro e w1 hb
    simp only [collectBTC.preCond, hb]

theorem collectBTC_preCond_fee_witness :
    collectBTC.preCond toyBtcutil (toyLibbtc bal25000) toyBtcAccount toyScriptAddress [OP_1]
        emptyTx 3
      = ((true, { emptyTx with TxOut := emptyTx.TxOut ++ [⟨bal25000.val - 10000, [OP_1]⟩] }), 3)
    ∧ collectBTC.preCond toyBtcutil (toyLibbtc bal9999) toyBtcAccount toyScriptAddress [OP_1]
        emptyTx 3
      = ((false, emptyTx), 3)
    ∧ collectBTC.preCond toyBtcutil toyLibbtcDown toyBtcAccount toyScriptAddress [OP_1]
        emptyTx 3
      = ((false, emptyTx), 3) :=
  ⟨((collectBTC_preCond_fee toyBtcutil (toyLibbtc bal25000) toyBtcAccount toyScriptAddress [OP_1]
      emptyTx 3).1 bal25000 3 rfl (by decide)).1,
   (collectBTC_preCond_fee toyBtcutil (toyLibbtc bal9999) toyBtcAccount toyScriptAddress [OP_1]
      emptyTx 3).2.1 bal9999 3 rfl (by decide),
   (collectBTC_preCond_fee toyBtcutil toyLibbtcDown toyBtcAccount toyScriptAddress [OP_1]
      emptyTx 3).2.2 () 3 rfl⟩

/-! ## C9 -/

/-- C9 as stated fails: on a balance of exactly 10000 the funding predicate
proceeds (returns true) and the payout output it adds has value 0, which is
not strictly positive. -/
theorem collectBTC_preCond_zero_payout :
    collectBTC.preCond toyBtcutil (toyLibbtc bal10000) toyBtcAccount toyScriptAddress [OP_1]
        emptyTx 3
      = ((true, { emptyTx with TxOut := [⟨0, [OP_1]⟩] }), 3)
    ∧ ¬ (0 < (⟨0, [OP_1]⟩ : TxOut).Value) := by
  constructor
  · rfl
  · decide

/-- C9 amended: whenever the funding predicate proceeds (returns true), the
balance query reported some `b`, exactly one payout output was appended, and
its value `b - 10000` is non-negative; it is zero exactly when `b = 10000`
and strictly positive exactly when `b > 10000`. -/
theorem collectBTC_preCond_payout_nonneg {W χ K : Type} (U : Btcutil χ K) (B : Libbtc W χ)
    (account : BtcAccount) (scriptAddress : Address) (payToAddrScript : List Byte)
    (msgTx tx1 : MsgTx) (w w1 : W)
    (h : collectBTC.preCond U B account scriptAddress payToAddrScript msgTx w = ((true, tx1), w1)) :
    ∃ b : Int64, B.Balance account (U.EncodeAddress scriptAddress) 0 w = (.ok b, w1)
      ∧ tx1.TxOut = msgTx.TxOut ++ [⟨b.val - 10000, payToAddrScript⟩]
      ∧ 0 ≤ b.val - 10000
      ∧ (b.val - 10000 = 0 ↔ b.val = 10000)
      ∧ (0 < b.val - 10000 ↔ 10000 < b.val) := by
  unfold collectBTC.preCond at h
  rcases hb : B.Balance account (U.EncodeAddress scriptAddress) 0 w with ⟨r, w2⟩
  rw [hb] at h
  cases r with
  | error e => simp at h
  | ok b =>
    have hfee : DefaultBitcoinFee = 10000 := rfl
    by_cases hlt : b.val < DefaultBitcoinFee
    · simp [hlt] at h
    · simp only [hlt, if_false, Prod.mk.injEq, true_and] at h
      obtain ⟨htx, hw⟩ := h
      have h2 := b.property.1
      have h3 := b.property.2
      have hge : 10000 ≤ b.val := by rw [hfee] at hlt; omega
      have hwrap : wrapInt64 (b.val - DefaultBitcoinFee) = b.val - 10000 := by
        rw [hfee]; unfold wrapInt64; omega
      refine ⟨b, by rw [hw], ?_, by omega, by omega, by omega⟩
      rw [← htx, hwrap]; rfl

theorem collectBTC_preCond_payout_nonneg_witness :
    ∃ b : Int64, (toyLibbtc bal10000).Balance toyBtcAccount
        (toyBtcutil.EncodeAddress toyScriptAddress) 0 3 = (.ok b, 3)
      ∧ ({ emptyTx with TxOut := [⟨0, [OP_1]⟩] } : MsgTx).TxOut
          = emptyTx.TxOut ++ [⟨b.val - 10000, [OP_1]⟩]
      ∧ 0 ≤ b.val - 10000
      ∧ (b.val - 10000 = 0 ↔ b.val = 10000)
      ∧ (0 < b.val - 10000 ↔ 10000 < b.val) :=
  collectBTC_preCond_payout_nonneg toyBtcutil (toyLibbtc bal10000) toyBtcAccount toyScriptAddress
    [OP_1] emptyTx { emptyTx with TxOut := [⟨0, [OP_1]⟩] } 3 3 rfl

/-! ## C6 -/

theorem PayToAddrScript_ok (address : Address) : ∃ pts, PayToAddrScript address = .ok pts := by
  cases address with
  | AddressPubKeyHash hash net =>
    obtain ⟨hb, hh⟩ := hash
    refine ⟨?_, ?_⟩
    swap
    simp only [PayToAddrScript, NewScriptBuilder]
    rw [AddOp_ok _ _ (by simp), AddOp_ok _ _ (by simp),
      AddData_ok _ _ (by omega) (by omega) (by simp; omega),
      AddOp_ok _ _ (by simp; omega), AddOp_ok _ _ (by simp; omega)]
    exact rfl
  | AddressScriptHash hash net =>
    obtain ⟨hb, hh⟩ := hash
    refine ⟨?_, ?_⟩
    swap
    simp only [PayToAddrScript, NewScriptBuilder]
    rw [AddOp_ok _ _ (by simp), AddData_ok _ _ (by omega) (by omega) (by simp; omega),
      AddOp_ok _ _ (by simp; omega)]
    exact rfl
  | AddressPubKey a =>
    obtain ⟨⟨sb, hs⟩, net⟩ := a
    refine ⟨?_, ?_⟩
    swap
    simp only [PayToAddrScript, NewScriptBuilder]
    rw [AddData_ok _ _ (by omega) (by omega) (by simp; omega), AddOp_ok _ _ (by simp; omega)]
    exact rfl
  | AddressWitnessPubKeyHash witnessProgram net =>
    obtain ⟨hb, hh⟩ := witnessProgram
    refine ⟨?_, ?_⟩
    swap
    simp only [PayToAddrScript, NewScriptBuilder]
    rw [AddOp_ok _ _ (by simp), AddData_ok _ _ (by omega) (by omega) (by simp; omega)]
    exact rfl
  | AddressWitnessScriptHash witnessProgram net =>
    obtain ⟨hb, hh⟩ := witnessProgram
    refine ⟨?_, ?_⟩
    swap
    simp only [PayToAddrScript, NewScriptBuilder]
    rw [AddOp_ok _ _ (by simp), AddData_ok _ _ (by omega) (by omega) (by simp; omega)]
    exact rfl

theorem NewAddressScriptHash_ok {χ K : Type} (U : Btcutil χ K) (script : List Byte) (net : Net) :
    NewAddressScriptHash U script net = .ok (.AddressScriptHash (U.Hash160 script) net) := by
  simp [NewAddressScriptHash, (U.Hash160 script).property]

theorem AllSucceed_det {W χ : Type} (call : List Byte → W → Option χ × W) :
    ∀ (scripts : List (List Byte)) (w w1 w2 : W),
      AllSucceed call scripts w w1 → AllSucceed call scripts w w2 → w1 = w2 := by
  intro scripts
  induction scripts with
  | nil => intro w w1 w2 h1 h2; simp only [AllSucceed] at h1 h2; rw [h1, h2]
  | cons sc rest ih =>
    intro w w1 w2 h1 h2
    obtain ⟨a, ha, ha2⟩ := h1
    obtain ⟨b, hb, hb2⟩ := h2
    rw [ha] at hb
    have hab : a = b := (Prod.mk.injEq _ _ _ _).mp hb |>.2
    subst hab
    exact ih _ _ _ ha2 hb2

theorem AllSucceed_append_fail {W χ : Type} (call : List Byte → W → Option χ × W) :
    ∀ (pre : List (List Byte)) (sc : List Byte) (post : List (List Byte)) (w w1 w2 w3 : W) (e : χ),
      AllSucceed call pre w w1 → call sc w1 = (some e, w2) →
      ¬ AllSucceed call (pre ++ sc :: post) w w3 := by
  intro pre
  induction pre with
  | nil =>
    intro sc post w w1 w2 w3 e h1 h2 h3
    simp only [AllSucceed] at h1
    subst h1
    obtain ⟨a, ha, _⟩ := h3
    rw [h2] at ha
    simp at ha
  | cons p pre ih =>
    intro sc post w w1 w2 w3 e h1 h2 h3
    obtain ⟨a, ha, ha2⟩ := h1
    obtain ⟨b, hb, hb2⟩ := h3
    rw [ha] at hb
    have hab : a = b := (Prod.mk.injEq _ _ _ _).mp hb |>.2
    subst hab
    exact ih sc post _ _ _ _ e ha2 h2 hb2

theorem collectBTC_loop_spec {W χ K : Type} (U : Btcutil χ K) (B : Libbtc W χ)
    (account : BtcAccount) (pts : List Byte) :
    ∀ (scripts : List (List Byte)) (s : Sys W BtcEvent),
      ((collectBTC.loop U B account pts scripts s).1 = none
        ∧ AllSucceed (collectBTC.call U B account pts) scripts s.world
            (collectBTC.loop U B account pts scripts s).2.world
        ∧ (collectBTC.loop U B account pts scripts s).2.trace
            = s.trace ++ scripts.map (fun sc => BtcEvent.SendTransaction sc DefaultBitcoinFee))
      ∨ (∃ (pre : List (List Byte)) (sc : List Byte) (post : List (List Byte)) (e : χ) (w : W),
          scripts = pre ++ sc :: post
          ∧ AllSucceed (collectBTC.call U B account pts) pre s.world w
          ∧ collectBTC.call U B account pts sc w
              = (some e, (collectBTC.loop U B account pts scripts s).2.world)
          ∧ (collectBTC.loop U B account pts scripts s).1 = some (.lib e)
          ∧ (collectBTC.loop U B account pts scripts s).2.trace
              = s.trace
                ++ (pre ++ [sc]).map (fun sc => BtcEvent.SendTransaction sc DefaultBitcoinFee)) := by
  intro scripts
  induction scripts with
  | nil =>
    intro s
    left
    simp [collectBTC.loop, AllSucceed]
  | cons sc rest ih =>
    intro s
    rcases hcall : collectBTC.call U B account pts sc s.world with ⟨o, w⟩
    have hcall2 := hcall
    unfold collectBTC.call at hcall2
    cases o with
    | some e =>
      right
      refine ⟨[], sc, rest, e, s.world, rfl, rfl, ?_, ?_, ?_⟩
      · rw [hcall]; simp [collectBTC.loop, NewAddressScriptHash_ok, hcall2]
      · simp [collectBTC.loop, NewAddressScriptHash_ok, hcall2]
      · simp [collectBTC.loop, NewAddressScriptHash_ok, hcall2]
    | none =>
      have hstep : collectBTC.loop U B account pts (sc :: rest) s
          = collectBTC.loop U B account pts rest
              ⟨w, s.trace ++ [.SendTransaction sc DefaultBitcoinFee]⟩ := by
        simp [collectBTC.loop, NewAddressScriptHash_ok, hcall2]
      rw [hstep]
      rcases ih ⟨w, s.trace ++ [.SendTransaction sc DefaultBitcoinFee]⟩ with h | h
      · left
        obtain ⟨h1, h2, h3⟩ := h
        refine ⟨h1, ⟨w, hcall, h2⟩, ?_⟩
        rw [h3]; simp
      · right
        obtain ⟨pre, sc1, post, e, w1, h1, h2, h3, h4, h5⟩ := h
        refine ⟨sc :: pre, sc1, post, e, w1, by rw [h1]; rfl, ⟨w, hcall, h2⟩, h3, h4, ?_⟩
        rw [h5]; simp

/-- C6: `collectBTC` calls `SendTransaction` on the scripts one at a time in
input order. Either every call returns a nil error, and then `collectBTC`
returns nil after exactly one call per script; or the scripts split as
`pre ++ sc :: post` where the calls for `pre` succeed and the call for `sc` is
the first to fail with `e`, and then `collectBTC` returns exactly `e` having
made the calls for `pre ++ [sc]` and none for `post`. It returns nil if and
only if every call succeeds. -/
theorem collectBTC_fail_fast {W χ K : Type} (U : Btcutil χ K) (B : Libbtc W χ)
    (address : Address) (scripts : List (List Byte)) (account : BtcAccount)
    (s : Sys W BtcEvent) :
    ∃ pts, PayToAddrScript address = .ok pts ∧
      (((collectBTC U B address scripts account s).1 = none
          ∧ AllSucceed (collectBTC.call U B account pts) scripts s.world
              (collectBTC U B address scripts account s).2.world
          ∧ (collectBTC U B address scripts account s).2.trace
              = s.trace ++ scripts.map (fun sc => BtcEvent.SendTransaction sc DefaultBitcoinFee))
        ∨ (∃ (pre : List (List Byte)) (sc : List Byte) (post : List (List Byte)) (e : χ) (w : W),
            scripts = pre ++ sc :: post
            ∧ AllSucceed (collectBTC.call U B account pts) pre s.world w
            ∧ collectBTC.call U B account pts sc w
                = (some e, (collectBTC U B address scripts account s).2.world)
            ∧ (collectBTC U B address scripts account s).1 = some (.lib e)
            ∧ (collectBTC U B address scripts account s).2.trace
                = s.trace
                  ++ (pre ++ [sc]).map (fun sc => BtcEvent.SendTransaction sc DefaultBitcoinFee)))
      ∧ ((collectBTC U B address scripts account s).1 = none
          ↔ ∃ w1, AllSucceed (collectBTC.call U B account pts) scripts s.world w1) := by
  obtain ⟨pts, hpts⟩ := PayToAddrScript_ok address
  have hc : collectBTC U B address scripts account s
      = collectBTC.loop U B account pts scripts s := by
    simp [collectBTC, hpts]
  refine ⟨pts, hpts, ?_, ?_⟩
  · rw [hc]; exact collectBTC_loop_spec U B account pts scripts s
  · rw [hc]
    rcases collectBTC_loop_spec U B account pts scripts s with h | h
    · exact ⟨fun _ => ⟨_, h.2.1⟩, fun _ => h.1⟩
    · obtain ⟨pre, sc1, post, e, w1, h1, h2, h3, h4, _⟩ := h
      constructor
      · intro hn; rw [h4] at hn; simp at hn
      · rintro ⟨w2, hw2⟩
        rw [h1] at hw2
        exact absurd hw2 (AllSucceed_append_fail _ pre sc1 post _ _ _ _ e h2 h3)

/-! ## Hex encoding and decoding -/

theorem fromHexChar_hextable (n : Nat) (h : n < 16) :
    fromHexChar (hextable.getD n 0) = some n := by
  interval_cases n <;> rfl

theorem toByte_nibbles (v : Byte) : toByte (v.val / 16 * 16 + v.val % 16) = v := by
  apply Fin.ext
  simp only [toByte]
  have := v.isLt
  omega

theorem DecodeString_EncodeToString (bs : List Byte) :
    DecodeString (EncodeToString bs) = .ok bs := by
  induction bs with
  | nil => rfl
  | cons v rest ih =>
    have h1 : v.val / 16 < 16 := by have := v.isLt; omega
    have h2 : v.val % 16 < 16 := Nat.mod_lt _ (by decide)
    simp only [EncodeToString, DecodeString, fromHexChar_hextable _ h1, fromHexChar_hextable _ h2,
      ih, toByte_nibbles]

theorem HexToECDSA_EncodeToString (bs : List Byte) :
    HexToECDSA (EncodeToString bs) = ToECDSA bs := by
  simp only [HexToECDSA, DecodeString_EncodeToString]

theorem ToECDSA_ok (d : List Byte) (hlen : d.length = 32) (hpos : 0 < SetBytes d)
    (hlt : SetBytes d < secp256k1N) : ToECDSA d = .ok ⟨SetBytes d⟩ := by
  have h1 : ¬ (8 * d.length ≠ 256) := by rw [hlen]; decide
  have h2 : ¬ (SetBytes d ≥ secp256k1N) := by omega
  have h3 : ¬ (SetBytes d ≤ 0) := by omega
  simp only [ToECDSA, h1, h2, h3, if_false]

theorem ToECDSA_bad_length (d : List Byte) (hlen : d.length ≠ 32) :
    ToECDSA d = .error .invalidLength := by
  have h1 : 8 * d.length ≠ 256 := by omega
  unfold ToECDSA
  rw [if_pos h1]

/-! ## C2 -/

theorem GenerateAddress_of_decoded {χ : Type} (PubkeyToAddress : PrivateKey → List Byte)
    (privateKey : List Byte) (u : UUID) (k : List Byte) (hdec : DecodeString privateKey = .ok k)
    (hlen : 16 ≤ k.length) :
    (ethGenerator.GenerateAddress PubkeyToAddress ⟨privateKey⟩ u : Go (EthError χ) (List Byte))
      = (match ToECDSA (u.val ++ k.drop 16) with
          | .error e => .err (.failedToGenerateNewPrivateKey e)
          | .ok key => .ok (PubkeyToAddress key)) := by
  have h16 : ¬ (k.length < 16) := by omega
  simp only [ethGenerator.GenerateAddress, hdec, h16, if_false, HexToECDSA_EncodeToString]

theorem Collect_accounts_step {W χ : Type} (L : Beth W χ) (collector : ethCollector)
    (k : List Byte) (hlen : 16 ≤ k.length) (u : UUID) (rest : List UUID)
    (accounts : List EthAccount) (s : Sys W EthEvent) :
    ethCollector.Collect.accounts L collector k (u :: rest) accounts s
      = (match ToECDSA (u.val ++ k.drop 16) with
          | .error e => (.err (.failedToCreateBethAccount (.failedToGeneratePrivateKey e)), s)
          | .ok key =>
            match L.NewAccount collector.url key s.world with
            | (some e, w) =>
              (.err (.failedToCreateBethAccount (.chain e)),
                ⟨w, s.trace ++ [.NewAccount collector.url key]⟩)
            | (none, w) =>
              ethCollector.Collect.accounts L collector k rest
                (accounts ++ [⟨collector.url, key⟩])
                ⟨w, s.trace ++ [.NewAccount collector.url key]⟩) := by
  have h16 : ¬ (k.length < 16) := by omega
  simp only [ethCollector.Collect.accounts, h16, if_false, ethCollector.newAccount,
    HexToECDSA_EncodeToString]
  cases ToECDSA (u.val ++ k.drop 16) with
  | error e => rfl
  | ok key =>
    simp only
    rcases L.NewAccount collector.url key s.world with ⟨o, w⟩
    cases o <;> rfl

/-- C2: when the master key string hex-decodes to 32 bytes `k`, the derived
key bytes are the 32-byte string `u ++ k[16:]` (bytes 0..15 the identifier,
bytes 16..31 those of the master key); hex-encoding and decoding gives these
bytes back, so `ethGenerator.GenerateAddress` computes the address from the
key `ToECDSA` makes of them, and the account loop of `ethCollector.Collect`
builds the child account for the same identifier from the key `ToECDSA` makes
of the same bytes. -/
theorem eth_child_key_bytes {W χ : Type} (L : Beth W χ)
    (PubkeyToAddress : PrivateKey → List Byte) (collector : ethCollector) (u : UUID)
    (rest : List UUID) (accounts : List EthAccount) (s : Sys W EthEvent) (k : List Byte)
    (hdec : DecodeString collector.privateKey = .ok k) (hlen : k.length = 32) :
    (u.val ++ k.drop 16).length = 32
    ∧ (u.val ++ k.drop 16).take 16 = u.val
    ∧ (u.val ++ k.drop 16).drop 16 = k.drop 16
    ∧ (∀ i, 16 ≤ i → i < 32 → (u.val ++ k.drop 16)[i]? = k[i]?)
    ∧ DecodeString (EncodeToString (u.val ++ k.drop 16)) = .ok (u.val ++ k.drop 16)
    ∧ (ethGenerator.GenerateAddress PubkeyToAddress ⟨collector.privateKey⟩ u :
          Go (EthError χ) (List Byte))
        = (match ToECDSA (u.val ++ k.drop 16) with
            | .error e => .err (.failedToGenerateNewPrivateKey e)
            | .ok key => .ok (PubkeyToAddress key))
    ∧ ethCollector.Collect.accounts L collector k (u :: rest) accounts s
        = (match ToECDSA (u.val ++ k.drop 16) with
            | .error e => (.err (.failedToCreateBethAccount (.failedToGeneratePrivateKey e)), s)
            | .ok key =>
              match L.NewAccount collector.url key s.world with
              | (some e, w) =>
                (.err (.failedToCreateBethAccount (.chain e)),
                  ⟨w, s.trace ++ [.NewAccount collector.url key]⟩)
              | (none, w) =>
                ethCollector.Collect.accounts L collector k rest
                  (accounts ++ [⟨collector.url, key⟩])
                  ⟨w, s.trace ++ [.NewAccount collector.url key]⟩) := by
  refine ⟨?_, ?_, ?_, ?_, DecodeString_EncodeToString _, ?_, ?_⟩
  · simp [u.property, hlen]
  · exact List.take_left' u.property
  · exact List.drop_left' u.property
  · intro i h1 h2
    rw [List.getElem?_append_right (by rw [u.property]; exact h1), u.property,
      List.getElem?_drop]
    congr 1
    omega
  · exact GenerateAddress_of_decoded PubkeyToAddress collector.privateKey u k hdec (by omega)
  · exact Collect_accounts_step L collector k (by omega) u rest accounts s

theorem eth_child_key_bytes_witness :
    DecodeString (NewETHCollector masterKeyOnesHex str_url []).privateKey
        = .ok (List.replicate 32 0x11)
    ∧ (List.replicate 32 (0x11 : Byte)).length = 32
    ∧ (uuidZero.val ++ (List.replicate 32 (0x11 : Byte)).drop 16).take 16 = uuidZero.val
    ∧ (uuidZero.val ++ (List.replicate 32 (0x11 : Byte)).drop 16).drop 16
        = (List.replicate 32 (0x11 : Byte)).drop 16 :=
  ⟨rfl, rfl,
    (eth_child_key_bytes (toyBeth 0) toyPubkeyToAddress
      (NewETHCollector masterKeyOnesHex str_url []) uuidZero [] [] toySys
      (List.replicate 32 0x11) rfl rfl).2.1,
    (eth_child_key_bytes (toyBeth 0) toyPubkeyToAddress
      (NewETHCollector masterKeyOnesHex str_url []) uuidZero [] [] toySys
      (List.replicate 32 0x11) rfl rfl).2.2.1⟩

/-! ## C7 -/

/-- C7 at a failing input: with the valid 32-byte master key `00..01` (64 hex
characters, the scalar 1) and the identifier of sixteen `0xff` bytes, the
derived scalar is not below the group order, and `GenerateAddress` returns the
error "failed to generate a new private key" and no address, where the claim
and the property test of eth_test.go ask for an address and no error. -/
theorem GenerateAddress_uuidFF_fails :
    masterKeyOneHex.length = 64
    ∧ DecodeString masterKeyOneHex = .ok (List.replicate 31 0 ++ [1])
    ∧ ToECDSA (List.replicate 31 0 ++ [1]) = .ok ⟨1⟩
    ∧ (ethGenerator.GenerateAddress toyPubkeyToAddress (NewETHGenerator masterKeyOneHex) uuidFF :
          Go (EthError Unit) (List Byte))
        = .err (.failedToGenerateNewPrivateKey .invalidPrivateKeyGeN) :=
  ⟨rfl, rfl, rfl, rfl⟩

theorem SetBytes_foldl_ge (d : List Byte) :
    ∀ acc : Nat, acc * 256 ^ d.length ≤ d.foldl (fun acc b => acc * 256 + b.val) acc := by
  induction d with
  | nil => intro acc; simp
  | cons b t ih =>
    intro acc
    simp only [List.foldl_cons, List.length_cons]
    calc acc * 256 ^ (t.length + 1) = (acc * 256) * 256 ^ t.length := by ring
      _ ≤ (acc * 256 + b.val) * 256 ^ t.length := Nat.mul_le_mul_right _ (Nat.le_add_right _ _)
      _ ≤ t.foldl (fun acc b => acc * 256 + b.val) (acc * 256 + b.val) := ih _

theorem SetBytes_uuidFF_ge (t : List Byte) (ht : t.length = 16) :
    secp256k1N ≤ SetBytes (uuidFF.val ++ t) := by
  have h1 : SetBytes (uuidFF.val ++ t)
      = t.foldl (fun acc b => acc * 256 + b.val) 340282366920938463463374607431768211455 := by
    unfold SetBytes
    rw [List.foldl_append]
    rfl
  have h2 := SetBytes_foldl_ge t 340282366920938463463374607431768211455
  rw [ht] at h2
  rw [h1]
  refine le_trans ?_ h2
  unfold secp256k1N
  norm_num

/-- The failure does not depend on the master key: for every master key string
that hex-decodes to 32 bytes, `GenerateAddress` on the identifier of sixteen
`0xff` bytes returns the error of a scalar not below the group order. -/
theorem GenerateAddress_uuidFF_fails_every_key {χ : Type}
    (PubkeyToAddress : PrivateKey → List Byte) (privateKey : List Byte) (k : List Byte)
    (hdec : DecodeString privateKey = .ok k) (hlen : k.length = 32) :
    (ethGenerator.GenerateAddress PubkeyToAddress (NewETHGenerator privateKey) uuidFF :
        Go (EthError χ) (List Byte))
      = .err (.failedToGenerateNewPrivateKey .invalidPrivateKeyGeN) := by
  have hl : (uuidFF.val ++ k.drop 16).length = 32 := by simp [uuidFF.property, hlen]
  have h1 : ¬ (8 * (uuidFF.val ++ k.drop 16).length ≠ 256) := by rw [hl]; decide
  have h2 : SetBytes (uuidFF.val ++ k.drop 16) ≥ secp256k1N :=
    SetBytes_uuidFF_ge _ (by simp [hlen])
  simp only [NewETHGenerator]
  rw [GenerateAddress_of_decoded PubkeyToAddress privateKey uuidFF k hdec (by omega)]
  unfold ToECDSA
  rw [if_neg h1, if_pos h2]

/-- When `GenerateAddress` succeeds: for a master key string that hex-decodes
to 32 bytes `k` and an identifier `u`, it returns an address and no error
exactly when the derived scalar, the big-endian value of `u ++ k[16:]`, is
non-zero and below the group order `secp256k1N`. -/
theorem GenerateAddress_ok_iff_scalar_in_range {χ : Type}
    (PubkeyToAddress : PrivateKey → List Byte) (privateKey : List Byte) (u : UUID) (k : List Byte)
    (hdec : DecodeString privateKey = .ok k) (hlen : k.length = 32) :
    ((∃ a, (ethGenerator.GenerateAddress PubkeyToAddress (NewETHGenerator privateKey) u :
          Go (EthError χ) (List Byte)) = .ok a)
        ↔ (0 < SetBytes (u.val ++ k.drop 16) ∧ SetBytes (u.val ++ k.drop 16) < secp256k1N))
    ∧ (0 < SetBytes (u.val ++ k.drop 16) → SetBytes (u.val ++ k.drop 16) < secp256k1N →
        (ethGenerator.GenerateAddress PubkeyToAddress (NewETHGenerator privateKey) u :
          Go (EthError χ) (List Byte)) = .ok (PubkeyToAddress ⟨SetBytes (u.val ++ k.drop 16)⟩)) := by
  have hgen := GenerateAddress_of_decoded (χ := χ) PubkeyToAddress privateKey u k hdec (by omega)
  have hl : (u.val ++ k.drop 16).length = 32 := by simp [u.property, hlen]
  have hok : 0 < SetBytes (u.val ++ k.drop 16) → SetBytes (u.val ++ k.drop 16) < secp256k1N →
      (ethGenerator.GenerateAddress PubkeyToAddress (NewETHGenerator privateKey) u :
        Go (EthError χ) (List Byte)) = .ok (PubkeyToAddress ⟨SetBytes (u.val ++ k.drop 16)⟩) := by
    intro hpos hlt
    simp only [NewETHGenerator]
    rw [hgen, ToECDSA_ok _ hl hpos hlt]
  refine ⟨⟨?_, fun h => ⟨_, hok h.1 h.2⟩⟩, hok⟩
  rintro ⟨a, ha⟩
  simp only [NewETHGenerator] at ha
  rw [hgen] at ha
  by_contra hrange
  have h1 : ¬ (8 * (u.val ++ k.drop 16).length ≠ 256) := by rw [hl]; decide
  unfold ToECDSA at ha
  rw [if_neg h1] at ha
  by_cases hge : SetBytes (u.val ++ k.drop 16) ≥ secp256k1N
  · rw [if_pos hge] at ha; simp at ha
  · rw [if_neg hge] at ha
    by_cases hz : SetBytes (u.val ++ k.drop 16) ≤ 0
    · rw [if_pos hz] at ha; simp at ha
    · exact hrange ⟨by omega, by omega⟩

theorem GenerateAddress_ok_iff_scalar_in_range_witness :
    (ethGenerator.GenerateAddress toyPubkeyToAddress (NewETHGenerator masterKeyOnesHex) uuidZero :
        Go (EthError Unit) (List Byte))
      = .ok (toyPubkeyToAddress
          ⟨SetBytes (uuidZero.val ++ (List.replicate 32 (0x11 : Byte)).drop 16)⟩) :=
  (GenerateAddress_ok_iff_scalar_in_range toyPubkeyToAddress masterKeyOnesHex uuidZero
    (List.replicate 32 0x11) rfl rfl).2 (by decide) (by decide)

/-! ## C8 -/

/-- C8 at the empty master key string: it hex-decodes to zero bytes, the slice
expression `privKeyBytes[16:]` is out of range, and `GenerateAddress` panics
instead of returning an error. -/
theorem GenerateAddress_empty_key_panics {χ : Type} (PubkeyToAddress : PrivateKey → List Byte)
    (u : UUID) :
    (ethGenerator.GenerateAddress PubkeyToAddress (NewETHGenerator []) u :
        Go (EthError χ) (List Byte)) = .panic := rfl

theorem GenerateAddress_short_key_panics {χ : Type} (PubkeyToAddress : PrivateKey → List Byte)
    (privateKey : List Byte) (u : UUID) (k : List Byte)
    (hdec : DecodeString privateKey = .ok k) (hlen : k.length < 16) :
    (ethGenerator.GenerateAddress PubkeyToAddress (NewETHGenerator privateKey) u :
        Go (EthError χ) (List Byte)) = .panic := by
  simp only [ethGenerator.GenerateAddress, NewETHGenerator, hdec, hlen, if_true]

theorem GenerateAddress_bad_key_errors {χ : Type} (PubkeyToAddress : PrivateKey → List Byte)
    (privateKey : List Byte) (u : UUID) :
    (∀ e, DecodeString privateKey = .error e →
        (ethGenerator.GenerateAddress PubkeyToAddress (NewETHGenerator privateKey) u :
          Go (EthError χ) (List Byte)) = .err (.invalidPrivatekey e))
    ∧ (∀ k, DecodeString privateKey = .ok k → 16 ≤ k.length → k.length ≠ 32 →
        (ethGenerator.GenerateAddress PubkeyToAddress (NewETHGenerator privateKey) u :
          Go (EthError χ) (List Byte)) = .err (.failedToGenerateNewPrivateKey .invalidLength)) := by
  constructor
  · intro e he
    simp only [ethGenerator.GenerateAddress, NewETHGenerator, he]
  · intro k hk h16 h32
    simp only [NewETHGenerator]
    rw [GenerateAddress_of_decoded PubkeyToAddress privateKey u k hk h16,
      ToECDSA_bad_length _ (by simp [u.property]; omega)]

/-! ## C10 -/

/-- C10 as stated fails: with two token kinds, a valid master key and the
batch of the one identifier `ff..ff`, on a chain where every call succeeds,
`Collect` returns an error and has issued no funding transfer (no call to the
chain at all), not one. -/
theorem Collect_uuidFF_no_funding :
    (NewETHCollector masterKeyOneHex str_url [str_REN, str_DAI]).tokenAddressesOrAliases.length = 2
    ∧ ToECDSA (List.replicate 31 0 ++ [1]) = .ok ⟨1⟩
    ∧ DecodeString masterKeyOneHex = .ok (List.replicate 31 0 ++ [1])
    ∧ (ethCollector.Collect (toyBeth 5) (NewETHCollector masterKeyOneHex str_url [str_REN, str_DAI])
          [0x30, 0x78] [uuidFF] toySys).1
        = .err (.failedToCreateBethAccount (.failedToGeneratePrivateKey .invalidPrivateKeyGeN))
    ∧ (ethCollector.Collect (toyBeth 5) (NewETHCollector masterKeyOneHex str_url [str_REN, str_DAI])
          [0x30, 0x78] [uuidFF] toySys).2.trace = [] :=
  ⟨rfl, rfl, rfl, rfl, rfl⟩

theorem ToECDSA_key {d : List Byte} {key : PrivateKey} (h : ToECDSA d = .ok key) :
    key = ⟨SetBytes d⟩ := by
  unfold ToECDSA at h
  split_ifs at h
  exact ((Except.ok.injEq _ _).mp h).symm

theorem Collect_accounts_spec {W χ : Type} (L : Beth W χ) (collector : ethCollector)
    (k : List Byte) :
    ∀ (uuids : List UUID) (acc accounts : List EthAccount) (s s1 : Sys W EthEvent),
      ethCollector.Collect.accounts L collector k uuids acc s = (.ok accounts, s1) →
      accounts = acc ++ uuids.map
          (fun u => (⟨collector.url, ⟨SetBytes (u.val ++ k.drop 16)⟩⟩ : EthAccount))
      ∧ s1.trace = s.trace ++ uuids.map
          (fun u => EthEvent.NewAccount collector.url ⟨SetBytes (u.val ++ k.drop 16)⟩) := by
  intro uuids
  induction uuids with
  | nil =>
    intro acc accounts s s1 h
    simp only [ethCollector.Collect.accounts, Prod.mk.injEq, Go.ok.injEq] at h
    obtain ⟨h1, h2⟩ := h
    subst h1 h2
    simp
  | cons u rest ih =>
    intro acc accounts s s1 h
    by_cases h16 : k.length < 16
    · simp [ethCollector.Collect.accounts, h16] at h
    · rw [Collect_accounts_step L collector k (by omega) u rest acc s] at h
      cases hk : ToECDSA (u.val ++ k.drop 16) with
      | error e => rw [hk] at h; simp at h
      | ok key =>
        rw [hk] at h
        have hkey := ToECDSA_key hk
        simp only at h
        rcases hn : L.NewAccount collector.url key s.world with ⟨o, w⟩
        rw [hn] at h
        cases o with
        | some e => simp at h
        | none =>
          simp only at h
          obtain ⟨h1, h2⟩ := ih _ _ _ _ h
          subst hkey
          refine ⟨?_, ?_⟩
          · rw [h1]; simp
          · rw [h2]; simp

theorem NoFundingBetween_refl {W : Type} (s : Sys W EthEvent) : NoFundingBetween s s :=
  ⟨[], by simp, by simp⟩

theorem NoFundingBetween_trans {W : Type} {s s1 s2 : Sys W EthEvent}
    (h1 : NoFundingBetween s s1) (h2 : NoFundingBetween s1 s2) : NoFundingBetween s s2 := by
  obtain ⟨e1, h1a, h1b⟩ := h1
  obtain ⟨e2, h2a, h2b⟩ := h2
  refine ⟨e1 ++ e2, by rw [h2a, h1a, List.append_assoc], ?_⟩
  intro e he
  rcases List.mem_append.mp he with h | h
  · exact h1b e h
  · exact h2b e h

theorem NoFundingBetween_of_trace {W : Type} (s : Sys W EthEvent) (w : W) (evs : List EthEvent)
    (h : ∀ e ∈ evs, EthEvent.isFunding e = false) :
    NoFundingBetween s ⟨w, s.trace ++ evs⟩ :=
  ⟨evs, rfl, h⟩

theorem withdrawEther_noFunding {W χ : Type} (L : Beth W χ) (address : List Byte)
    (account : EthAccount) (s : Sys W EthEvent) :
    NoFundingBetween s (withdrawEther L address account s).2 := by
  unfold withdrawEther
  rcases L.BalanceAt account s.world with ⟨r, w⟩
  cases r with
  | error e => exact NoFundingBetween_of_trace s w _ (by simp [EthEvent.isFunding])
  | ok bal =>
    by_cases hb : bal = 0
    · simp only [hb, if_true]
      exact NoFundingBetween_of_trace s w _ (by simp [EthEvent.isFunding])
    · simp only [hb, if_false]
      rcases L.Transfer account (L.HexToAddress address) none 0 w with ⟨o, w1⟩
      cases o <;> exact NoFundingBetween_of_trace s w1 _ (by simp [EthEvent.isFunding])

theorem withdrawERC20_noFunding {W χ : Type} (L : Beth W χ) (address : List Byte)
    (account : EthAccount) (token : List Byte) (s : Sys W EthEvent) :
    NoFundingBetween s (withdrawERC20 L address account token s).2 := by
  unfold withdrawERC20
  rcases L.NewERC20 account token s.world with ⟨o, w⟩
  cases o with
  | some e => exact NoFundingBetween_of_trace s w _ (by simp [EthEvent.isFunding])
  | none =>
    simp only
    rcases L.ERC20BalanceOf account token (L.Address account) w with ⟨r, w1⟩
    cases r with
    | error e => exact NoFundingBetween_of_trace s w1 _ (by simp [EthEvent.isFunding])
    | ok bal =>
      by_cases hb : bal = 0
      · simp only [hb, if_true]
        exact NoFundingBetween_of_trace s w1 _ (by simp [EthEvent.isFunding])
      · simp only [hb, if_false]
        rcases L.ERC20Transfer account token (L.HexToAddress address) none w1 with ⟨o, w2⟩
        cases o <;>
          exact ⟨_, List.append_assoc _ _ _, by simp [EthEvent.isFunding]⟩

theorem collectEther_noFunding {W χ : Type} (L : Beth W χ) (address : List Byte) :
    ∀ (accounts : List EthAccount) (s : Sys W EthEvent),
      NoFundingBetween s (collectEther L address accounts s).2 := by
  intro accounts
  induction accounts with
  | nil => intro s; exact NoFundingBetween_refl s
  | cons a rest ih =>
    intro s
    have h1 := withdrawEther_noFunding L address a s
    unfold collectEther
    rcases hw : withdrawEther L address a s with ⟨o, s1⟩
    rw [hw] at h1
    cases o with
    | some e => exact h1
    | none => exact NoFundingBetween_trans h1 (ih s1)

theorem collectERC20_noFunding {W χ : Type} (L : Beth W χ) (address : List Byte)
    (token : List Byte) :
    ∀ (accounts : List EthAccount) (s : Sys W EthEvent),
      NoFundingBetween s (collectERC20 L address token accounts s).2 := by
  intro accounts
  induction accounts with
  | nil => intro s; exact NoFundingBetween_refl s
  | cons a rest ih =>
    intro s
    have h1 := withdrawERC20_noFunding L address a token s
    unfold collectERC20
    rcases hw : withdrawERC20 L address a token s with ⟨o, s1⟩
    rw [hw] at h1
    cases o with
    | some e => exact h1
    | none => exact NoFundingBetween_trans h1 (ih s1)

theorem Collect_tokens_noFunding {W χ : Type} (L : Beth W χ) (address : List Byte)
    (accounts : List EthAccount) :
    ∀ (tokens : List (List Byte)) (s : Sys W EthEvent),
      NoFundingBetween s (ethCollector.Collect.tokens L address accounts tokens s).2 := by
  intro tokens
  induction tokens with
  | nil => intro s; exact NoFundingBetween_refl s
  | cons t rest ih =>
    intro s
    have h1 := collectERC20_noFunding L address t accounts s
    unfold ethCollector.Collect.tokens
    rcases hw : collectERC20 L address t accounts s with ⟨o, s1⟩
    rw [hw] at h1
    cases o with
    | some e => exact h1
    | none => exact NoFundingBetween_trans h1 (ih s1)

theorem depositFees_loop_spec {W χ : Type} (L : Beth W χ) (account : EthAccount) (amount : Int) :
    ∀ (userAccounts : List EthAccount) (s s1 : Sys W EthEvent),
      ethCollector.depositFees.loop L account amount userAccounts s = (none, s1) →
      s1.trace = s.trace ++ userAccounts.map
        (fun a => EthEvent.Transfer account (L.Address a) (some amount) 0) := by
  intro userAccounts
  induction userAccounts with
  | nil =>
    intro s s1 h
    simp only [ethCollector.depositFees.loop, Prod.mk.injEq, true_and] at h
    subst h; simp
  | cons a rest ih =>
    intro s s1 h
    unfold ethCollector.depositFees.loop at h
    rcases ht : L.Transfer account (L.Address a) (some amount) 0 s.world with ⟨o, w⟩
    rw [ht] at h
    cases o with
    | some e => simp at h
    | none =>
      simp only at h
      rw [ih _ _ h]; simp

theorem depositFees_amount (n : Nat) (hov : 1200000 * n < 2 ^ 63) :
    wrapInt64 (1200000 * (n : Int)) * 1000000000 = 1200000 * (n : Int) * 1000000000 := by
  have h : wrapInt64 (1200000 * (n : Int)) = 1200000 * (n : Int) := by
    unfold wrapInt64
    have h2 : (1200000 * (n : Int)) < 2 ^ 63 := by exact_mod_cast hov
    omega
  rw [h]

theorem depositFees_spec {W χ : Type} (L : Beth W χ) (collector : ethCollector)
    (accounts : List EthAccount) (s1 s2 : Sys W EthEvent)
    (hn : 1 ≤ collector.tokenAddressesOrAliases.length)
    (hov : 1200000 * collector.tokenAddressesOrAliases.length < 2 ^ 63)
    (hdep : collector.depositFees L accounts s1 = (none, s2)) :
    ∃ feeKey, HexToECDSA collector.privateKey = .ok feeKey
      ∧ s2.trace = s1.trace ++ [EthEvent.NewAccount collector.url feeKey]
          ++ accounts.map (fun a => EthEvent.Transfer ⟨collector.url, feeKey⟩ (L.Address a)
              (some (1200000 * (collector.tokenAddressesOrAliases.length : Int) * 1000000000)) 0) := by
  unfold ethCollector.depositFees at hdep
  simp only at hdep
  rw [depositFees_amount _ hov] at hdep
  have hpos : ¬ (1200000 * (collector.tokenAddressesOrAliases.length : Int) * 1000000000 ≤ 0) := by
    have : (1 : Int) ≤ (collector.tokenAddressesOrAliases.length : Int) := by exact_mod_cast hn
    omega
  rw [if_neg hpos] at hdep
  unfold ethCollector.newAccount at hdep
  cases hk : HexToECDSA collector.privateKey with
  | error e => rw [hk] at hdep; simp at hdep
  | ok feeKey =>
    rw [hk] at hdep
    simp only at hdep
    rcases hna : L.NewAccount collector.url feeKey s1.world with ⟨o, w⟩
    rw [hna] at hdep
    cases o with
    | some e => simp at hdep
    | none =>
      simp only at hdep
      refine ⟨feeKey, rfl, ?_⟩
      rw [depositFees_loop_spec L _ _ _ _ _ hdep]

theorem Collect_after_deposit {W χ : Type} (L : Beth W χ) (collector : ethCollector)
    (address : List Byte) (uuids : List UUID) (k : List Byte) (accounts : List EthAccount)
    (s s1 s2 : Sys W EthEvent)
    (hdec : DecodeString collector.privateKey = .ok k)
    (hacc : ethCollector.Collect.accounts L collector k uuids [] s = (.ok accounts, s1))
    (hdep : collector.depositFees L accounts s1 = (none, s2)) :
    NoFundingBetween s2 (ethCollector.Collect L collector address uuids s).2 := by
  unfold ethCollector.Collect
  simp only [hdec, hacc, hdep]
  have h1 := Collect_tokens_noFunding L address accounts collector.tokenAddressesOrAliases s2
  rcases ht : ethCollector.Collect.tokens L address accounts collector.tokenAddressesOrAliases s2
    with ⟨o, s3⟩
  rw [ht] at h1
  cases o with
  | some e => exact h1
  | none =>
    simp only
    have h2 := collectEther_noFunding L address accounts s3
    rcases he : collectEther L address accounts s3 with ⟨o2, s4⟩
    rw [he] at h2
    cases o2 <;> exact NoFundingBetween_trans h1 h2

/-- C10 amended: let the collector have `n >= 1` token kinds (with
`1200000 * n` below `2^63`, so that the Go `int` product does not wrap), let
the master key decode, let every one of the `m` child accounts be created and
let `depositFees` return no error. Then the calls `Collect` has made are, in
this order: the creation of the `m` child accounts, the creation of the
fee-paying account, exactly `m` funding transfers from the fee-paying account,
one per child account in input order, each of exactly
`1200000 * n * 1000000000` wei, and after them calls none of which is a
funding transfer; so every funding transfer is issued before any token or
native-currency withdrawal is attempted. -/
theorem Collect_funds_every_child_first {W χ : Type} (L : Beth W χ) (collector : ethCollector)
    (address : List Byte) (uuids : List UUID) (k : List Byte) (accounts : List EthAccount)
    (s s1 s2 : Sys W EthEvent)
    (hn : 1 ≤ collector.tokenAddressesOrAliases.length)
    (hov : 1200000 * collector.tokenAddressesOrAliases.length < 2 ^ 63)
    (hdec : DecodeString collector.privateKey = .ok k)
    (hacc : ethCollector.Collect.accounts L collector k uuids [] s = (.ok accounts, s1))
    (hdep : collector.depositFees L accounts s1 = (none, s2)) :
    ∃ (feeKey : PrivateKey) (rest : List EthEvent),
      HexToECDSA collector.privateKey = .ok feeKey
      ∧ accounts = uuids.map
          (fun u => (⟨collector.url, ⟨SetBytes (u.val ++ k.drop 16)⟩⟩ : EthAccount))
      ∧ (ethCollector.Collect L collector address uuids s).2.trace
          = s.trace
            ++ uuids.map
                (fun u => EthEvent.NewAccount collector.url ⟨SetBytes (u.val ++ k.drop 16)⟩)
            ++ [EthEvent.NewAccount collector.url feeKey]
            ++ accounts.map (fun a => EthEvent.Transfer ⟨collector.url, feeKey⟩ (L.Address a)
                (some (1200000 * (collector.tokenAddressesOrAliases.length : Int) * 1000000000)) 0)
            ++ rest
      ∧ (∀ e ∈ rest, EthEvent.isFunding e = false)
      ∧ (accounts.map (fun a => EthEvent.Transfer ⟨collector.url, feeKey⟩ (L.Address a)
            (some (1200000 * (collector.tokenAddressesOrAliases.length : Int) * 1000000000))
            0)).length = uuids.length := by
  obtain ⟨hA, hT1⟩ := Collect_accounts_spec L collector k uuids [] accounts s s1 hacc
  obtain ⟨feeKey, hfee, hT2⟩ := depositFees_spec L collector accounts s1 s2 hn hov hdep
  obtain ⟨rest, hT3, hrest⟩ := Collect_after_deposit L collector address uuids k accounts s s1 s2
    hdec hacc hdep
  simp only [List.nil_append] at hA
  refine ⟨feeKey, rest, hfee, hA, ?_, hrest, ?_⟩
  · rw [hT3, hT2, hT1]
  · rw [List.length_map, hA, List.length_map]

theorem Collect_funds_every_child_first_witness :
    ∃ (feeKey : PrivateKey) (rest : List EthEvent),
      HexToECDSA (NewETHCollector masterKeyOnesHex str_url [str_REN, str_DAI]).privateKey
        = .ok feeKey
      ∧ [(⟨str_url, ⟨SetBytes (uuidZero.val ++ List.replicate 16 0x11)⟩⟩ : EthAccount),
          ⟨str_url, ⟨SetBytes (uuidOne.val ++ List.replicate 16 0x11)⟩⟩]
        = [uuidZero, uuidOne].map
            (fun u => (⟨(NewETHCollector masterKeyOnesHex str_url [str_REN, str_DAI]).url,
              ⟨SetBytes (u.val ++ (List.replicate 32 (0x11 : Byte)).drop 16)⟩⟩ : EthAccount))
      ∧ (ethCollector.Collect (toyBeth 5)
            (NewETHCollector masterKeyOnesHex str_url [str_REN, str_DAI]) [0x30, 0x78]
            [uuidZero, uuidOne] toySys).2.trace
          = toySys.trace
            ++ [uuidZero, uuidOne].map
                (fun u => EthEvent.NewAccount
                  (NewETHCollector masterKeyOnesHex str_url [str_REN, str_DAI]).url
                  ⟨SetBytes (u.val ++ (List.replicate 32 (0x11 : Byte)).drop 16)⟩)
            ++ [EthEvent.NewAccount
                  (NewETHCollector masterKeyOnesHex str_url [str_REN, str_DAI]).url feeKey]
            ++ [(⟨str_url, ⟨SetBytes (uuidZero.val ++ List.replicate 16 0x11)⟩⟩ : EthAccount),
                  ⟨str_url, ⟨SetBytes (uuidOne.val ++ List.replicate 16 0x11)⟩⟩].map
                (fun a => EthEvent.Transfer
                  ⟨(NewETHCollector masterKeyOnesHex str_url [str_REN, str_DAI]).url, feeKey⟩
                  ((toyBeth 5).Address a)
                  (some (1200000
                    * ((NewETHCollector masterKeyOnesHex str_url
                        [str_REN, str_DAI]).tokenAddressesOrAliases.length : Int)
                    * 1000000000)) 0)
            ++ rest
      ∧ (∀ e ∈ rest, EthEvent.isFunding e = false)
      ∧ ([(⟨str_url, ⟨SetBytes (uuidZero.val ++ List.replicate 16 0x11)⟩⟩ : EthAccount),
            ⟨str_url, ⟨SetBytes (uuidOne.val ++ List.replicate 16 0x11)⟩⟩].map
          (fun a => EthEvent.Transfer
            ⟨(NewETHCollector masterKeyOnesHex str_url [str_REN, str_DAI]).url, feeKey⟩
            ((toyBeth 5).Address a)
            (some (1200000
              * ((NewETHCollector masterKeyOnesHex str_url
                  [str_REN, str_DAI]).tokenAddressesOrAliases.length : Int)
              * 1000000000)) 0)).length = [uuidZero, uuidOne].length :=
  Collect_funds_every_child_first (toyBeth 5)
    (NewETHCollector masterKeyOnesHex str_url [str_REN, str_DAI]) [0x30, 0x78]
    [uuidZero, uuidOne] (List.replicate 32 0x11)
    [⟨str_url, ⟨SetBytes (uuidZero.val ++ List.replicate 16 0x11)⟩⟩,
      ⟨str_url, ⟨SetBytes (uuidOne.val ++ List.replicate 16 0x11)⟩⟩]
    toySys
    ⟨(), [.NewAccount str_url ⟨SetBytes (uuidZero.val ++ List.replicate 16 0x11)⟩,
          .NewAccount str_url ⟨SetBytes (uuidOne.val ++ List.replicate 16 0x11)⟩]⟩
    (ethCollector.depositFees (toyBeth 5)
      (NewETHCollector masterKeyOnesHex str_url [str_REN, str_DAI])
      [⟨str_url, ⟨SetBytes (uuidZero.val ++ List.replicate 16 0x11)⟩⟩,
        ⟨str_url, ⟨SetBytes (uuidOne.val ++ List.replicate 16 0x11)⟩⟩]
      ⟨(), [.NewAccount str_url ⟨SetBytes (uuidZero.val ++ List.replicate 16 0x11)⟩,
            .NewAccount str_url ⟨SetBytes (uuidOne.val ++ List.replicate 16 0x11)⟩]⟩).2
    (by decide) (by decide) (by rfl) (by rfl) (by rfl)

/-- The scenario of the spec run on a chain where every call succeeds and
every balance is 5: two token kinds and two identifiers give exactly two
funding transfers of `2 * 1200000 * 1000000000` wei each, issued before every
withdrawal. -/
theorem Collect_two_tokens_two_identifiers :
    ((ethCollector.Collect (toyBeth 5)
        (NewETHCollector masterKeyOnesHex str_url [str_REN, str_DAI]) [0x30, 0x78]
        [uuidZero, uuidOne] toySys).2.trace.filter EthEvent.isFunding).map
      (fun e => match e with
        | .Transfer _ _ value _ => value
        | _ => none)
      = [some (2 * 1200000 * 1000000000), some (2 * 1200000 * 1000000000)]
    ∧ ((ethCollector.Collect (toyBeth 5)
        (NewETHCollector masterKeyOnesHex str_url [str_REN, str_DAI]) [0x30, 0x78]
        [uuidZero, uuidOne] toySys).2.trace.take 5).all
          (fun e => !EthEvent.isWithdrawal e) = true
    ∧ ((ethCollector.Collect (toyBeth 5)
        (NewETHCollector masterKeyOnesHex str_url [str_REN, str_DAI]) [0x30, 0x78]
        [uuidZero, uuidOne] toySys).2.trace.drop 5).all
          (fun e => !EthEvent.isFunding e) = true :=
  ⟨rfl, rfl, rfl⟩

theorem Collect_accounts_trace {W χ : Type} (L : Beth W χ) (collector : ethCollector)
    (k : List Byte) :
    ∀ (uuids : List UUID) (acc : List EthAccount) (s s1 : Sys W EthEvent)
      (r : Go (EthError χ) (List EthAccount)),
      ethCollector.Collect.accounts L collector k uuids acc s = (r, s1) →
      ∃ evs, s1.trace = s.trace ++ evs
        ∧ ∀ ev ∈ evs, EthEvent.isFunding ev = false ∧ EthEvent.isWithdrawal ev = false := by
  intro uuids
  induction uuids with
  | nil =>
    intro acc s s1 r h
    simp only [ethCollector.Collect.accounts, Prod.mk.injEq] at h
    exact ⟨[], by rw [← h.2]; simp, by simp⟩
  | cons u rest ih =>
    intro acc s s1 r h
    by_cases h16 : k.length < 16
    · simp only [ethCollector.Collect.accounts, h16, if_true, Prod.mk.injEq] at h
      exact ⟨[], by rw [← h.2]; simp, by simp⟩
    · rw [Collect_accounts_step L collector k (by omega) u rest acc s] at h
      cases hk : ToECDSA (u.val ++ k.drop 16) with
      | error e =>
        rw [hk] at h
        simp only [Prod.mk.injEq] at h
        exact ⟨[], by rw [← h.2]; simp, by simp⟩
      | ok key =>
        rw [hk] at h
        simp only at h
        rcases hn : L.NewAccount collector.url key s.world with ⟨o, w⟩
        rw [hn] at h
        cases o with
        | some e =>
          simp only [Prod.mk.injEq] at h
          exact ⟨[.NewAccount collector.url key], by rw [← h.2],
            by simp [EthEvent.isFunding, EthEvent.isWithdrawal]⟩
        | none =>
          simp only at h
          obtain ⟨evs, h1, h2⟩ := ih _ _ _ _ h
          refine ⟨.NewAccount collector.url key :: evs, by rw [h1]; simp, ?_⟩
          intro ev hev
          rcases List.mem_cons.mp hev with h3 | h3
          · subst h3; simp [EthEvent.isFunding, EthEvent.isWithdrawal]
          · exact h2 ev h3

/-- When a child account cannot be created, `Collect` returns that error, and
the calls it has made by then are neither funding transfers nor withdrawals. -/
theorem Collect_account_error_no_funding {W χ : Type} (L : Beth W χ) (collector : ethCollector)
    (address : List Byte) (uuids : List UUID) (k : List Byte) (e : EthError χ)
    (s s1 : Sys W EthEvent)
    (hdec : DecodeString collector.privateKey = .ok k)
    (hacc : ethCollector.Collect.accounts L collector k uuids [] s = (.err e, s1)) :
    ethCollector.Collect L collector address uuids s = (.err e, s1)
    ∧ ∃ evs, s1.trace = s.trace ++ evs
        ∧ ∀ ev ∈ evs, EthEvent.isFunding ev = false ∧ EthEvent.isWithdrawal ev = false := by
  refine ⟨?_, Collect_accounts_trace L collector k uuids [] s s1 _ hacc⟩
  unfold ethCollector.Collect
  simp only [hdec, hacc]

/-! ## C4 -/

theorem Collect_scripts_spec {χ : Type} (pkHash : Hash160T) :
    ∀ (uuids : List UUID) (acc : List (List Byte)),
      (btcCollector.Collect.scripts pkHash uuids acc : Except (BtcError χ) (List (List Byte)))
        = .ok (acc ++ uuids.map (fun u =>
            [(0x10 : Byte)] ++ u.val ++ [0x75, 0x76, 0xa9, 0x14] ++ pkHash.val ++ [0x88, 0xac])) := by
  intro uuids
  induction uuids with
  | nil =>
    intro acc
    simp only [btcCollector.Collect.scripts, List.map_nil, List.append_nil]
  | cons u rest ih =>
    intro acc
    simp only [btcCollector.Collect.scripts, newScript_eq u pkHash.val pkHash.property, ih,
      List.map_cons, List.append_assoc, List.singleton_append, List.cons_append, List.nil_append]

/-- C4: on a supported network, let the collector's WIF decode to a key whose
public key `SerializedPublicKey` serializes to `pubKeyBytes` (compressed on
mainnet, uncompressed on testnet), and let the generator be configured with
the pay-to-public-key-hash address of the hash of `pubKeyBytes`. Then for
every identifier the script `newScript` builds from it and that hash is the
one whose script-hash address `GenerateAddress` returns, and `Collect` hands
exactly these scripts, in input order, to `collectBTC`. The library facts
used: an address printed by `EncodeAddress` is read back by `DecodeAddress`,
and a parsed public key keeps its serialization. -/
theorem btc_collect_redeems_generated {W χ K : Type} (U : Btcutil χ K) (B : Libbtc W χ)
    (network wifStr dest : List Byte) (net : Net) (wif : PrivateKey) (pubKeyBytes : List Byte)
    (apk : AddressPubKey) (addr : Address) (uuids : List UUID) (s : Sys W BtcEvent)
    (hnet : (networkParams network : Except (BtcError χ) Net) = .ok net)
    (hwif : U.DecodeWIF wifStr = .ok wif)
    (hser : SerializedPublicKey U (U.PubKey wif) net = .ok pubKeyBytes)
    (hapk : U.NewAddressPubKey pubKeyBytes net = .ok apk)
    (hsame : apk.serialized.val = pubKeyBytes)
    (hdest : U.DecodeAddress dest net = .ok addr)
    (hround : ∀ h n, U.DecodeAddress (U.EncodeAddress (.AddressPubKeyHash h n)) n
        = .ok (.AddressPubKeyHash h n)) :
    ∃ scriptOf : UUID → List Byte,
      (∀ u, newScript u (U.Hash160 pubKeyBytes).val = .ok (scriptOf u))
      ∧ (∀ u, btcGenerator.GenerateAddress U
            ⟨U.EncodeAddress (.AddressPubKeyHash (U.Hash160 pubKeyBytes) net), network⟩ u
          = .ok (U.EncodeAddress (.AddressScriptHash (U.Hash160 (scriptOf u)) net)))
      ∧ btcCollector.Collect U B ⟨wifStr, network⟩ dest uuids s
          = collectBTC U B addr (uuids.map scriptOf) ⟨network, wif⟩ s
      ∧ (net = .MainNetParams ∨ net = .TestNet3Params)
      ∧ (net = .MainNetParams → pubKeyBytes = U.SerializeCompressed (U.PubKey wif))
      ∧ (net = .TestNet3Params → pubKeyBytes = U.SerializeUncompressed (U.PubKey wif)) := by
  refine ⟨fun u => [(0x10 : Byte)] ++ u.val ++ [0x75, 0x76, 0xa9, 0x14]
      ++ (U.Hash160 pubKeyBytes).val ++ [0x88, 0xac], ?_, ?_, ?_, ?_, ?_, ?_⟩
  · intro u
    exact newScript_eq u _ (U.Hash160 pubKeyBytes).property
  · intro u
    simp only [btcGenerator.GenerateAddress, hnet, addressToPubKeyHash, hround,
      newScript_eq u _ (U.Hash160 pubKeyBytes).property, NewAddressScriptHash_ok]
  · simp only [btcCollector.Collect, hnet, hwif, hser, hapk, hdest, hsame, Collect_scripts_spec,
      List.nil_append]
  · cases net <;> simp [SerializedPublicKey] at hser ⊢
  · intro h; subst h
    simp only [SerializedPublicKey, Except.ok.injEq] at hser
    exact hser.symm
  · intro h; subst h
    simp only [SerializedPublicKey, Except.ok.injEq] at hser
    exact hser.symm

theorem toyBtcutil_roundtrip (h : Hash160T) (n : Net) :
    toyBtcutil.DecodeAddress (toyBtcutil.EncodeAddress (.AddressPubKeyHash h n)) n
      = .ok (.AddressPubKeyHash h n) := by
  simp [toyBtcutil, toyEncodeAddress, toyDecodeAddress, h.property]

theorem btc_collect_redeems_generated_witness :
    ∃ scriptOf : UUID → List Byte,
      (∀ u, newScript u (toyBtcutil.Hash160 toyPubKeyBytes).val = .ok (scriptOf u))
      ∧ (∀ u, btcGenerator.GenerateAddress toyBtcutil
            ⟨toyBtcutil.EncodeAddress
              (.AddressPubKeyHash (toyBtcutil.Hash160 toyPubKeyBytes) .TestNet3Params),
              str_testnet⟩ u
          = .ok (toyBtcutil.EncodeAddress
              (.AddressScriptHash (toyBtcutil.Hash160 (scriptOf u)) .TestNet3Params)))
      ∧ btcCollector.Collect toyBtcutil (toyLibbtc bal25000) ⟨toyWifStr, str_testnet⟩
            (toyBtcutil.EncodeAddress toyDest) [uuidZero, uuidFF] toyBtcSys
          = collectBTC toyBtcutil (toyLibbtc bal25000) toyDest ([uuidZero, uuidFF].map scriptOf)
              ⟨str_testnet, toyWifKey⟩ toyBtcSys
      ∧ (Net.TestNet3Params = .MainNetParams ∨ Net.TestNet3Params = .TestNet3Params)
      ∧ (Net.TestNet3Params = .MainNetParams →
          toyPubKeyBytes = toyBtcutil.SerializeCompressed (toyBtcutil.PubKey toyWifKey))
      ∧ (Net.TestNet3Params = .TestNet3Params →
          toyPubKeyBytes = toyBtcutil.SerializeUncompressed (toyBtcutil.PubKey toyWifKey)) :=
  btc_collect_redeems_generated toyBtcutil (toyLibbtc bal25000) str_testnet toyWifStr
    (toyBtcutil.EncodeAddress toyDest) .TestNet3Params toyWifKey toyPubKeyBytes toyApk toyDest
    [uuidZero, uuidFF] toyBtcSys rfl rfl rfl rfl rfl rfl toyBtcutil_roundtrip

/-- The toy chain run end to end: the generator's address for an identifier is
the script-hash address of the script the collector sends, and the collector
sends one transaction per identifier, in order. -/
theorem btc_toy_run :
    (btcCollector.Collect toyBtcutil (toyLibbtc bal25000) ⟨toyWifStr, str_testnet⟩
        (toyBtcutil.EncodeAddress toyDest) [uuidZero, uuidFF] toyBtcSys).1 = none
    ∧ (btcCollector.Collect toyBtcutil (toyLibbtc bal25000) ⟨toyWifStr, str_testnet⟩
        (toyBtcutil.EncodeAddress toyDest) [uuidZero, uuidFF] toyBtcSys).2.trace.length = 2
    ∧ (btcCollector.Collect toyBtcutil (toyLibbtc bal25000) ⟨toyWifStr, str_testnet⟩
        (toyBtcutil.EncodeAddress toyDest) [uuidZero, uuidFF, uuidOne, uuidZero] toyBtcSys).1
        = some (.lib ())
    ∧ (btcCollector.Collect toyBtcutil (toyLibbtc bal25000) ⟨toyWifStr, str_testnet⟩
        (toyBtcutil.EncodeAddress toyDest) [uuidZero, uuidFF, uuidOne, uuidZero]
          toyBtcSys).2.trace.length = 4 :=
  ⟨by with_unfolding_all rfl, by with_unfolding_all rfl, by with_unfolding_all rfl,
    by with_unfolding_all rfl⟩

end Hdwallet
